import Mathlib

/-!
Verification of the Mafia game engine (FastAPI backend).

Shallow embedding of `backend/app/core/schemas.py`, `engine_graph.py`,
`llm_openrouter.py` and `backend/app/api/routes.py`.  Python strings are
Lean `String`s (code-point lists), Python `int` is `Int`, dictionaries with
insertion order are association lists, and the nondeterministic inputs
(oracle responses, random speaker choices) are explicit parameters.
Timestamps (`time.time()`) and network I/O do not influence any verified
property and are omitted from the event model; the failure of an oracle
call is modelled by an `Option` response.
-/

namespace Mafia

/-! ### Python string primitives used by the engine -/

/-- `str.lower()` (the player names and vote tokens used by the game are
ASCII, where `Char.toLower` agrees with Python). -/
def py_lower (s : String) : String := ⟨s.data.map Char.toLower⟩

/-- `str.upper()` on ASCII text. -/
def py_upper (s : String) : String := ⟨s.data.map Char.toUpper⟩

/-- Character test used by `str.strip(chars)`. -/
def char_in (cs : List Char) (c : Char) : Bool := cs.contains c

/-- `str.strip(chars)`: drop leading and trailing characters of the set. -/
def py_strip_set (cs : List Char) (s : String) : String :=
  ⟨((s.data.dropWhile (char_in cs)).reverse.dropWhile (char_in cs)).reverse⟩

/-- `pat` is an initial segment of `txt` (helper for substring search). -/
def chars_lead : List Char → List Char → Bool
  | [], _ => true
  | _ :: _, [] => false
  | a :: as, b :: bs => a == b && chars_lead as bs

/-- `pat` occurs contiguously inside `txt` (Python `pat in txt`). -/
def chars_has_sub (pat : List Char) : List Char → Bool
  | [] => chars_lead pat []
  | c :: cs => chars_lead pat (c :: cs) || chars_has_sub pat cs

/-- Python `pat in s` on strings (code-point containment; the empty pattern
is contained in everything, as in Python). -/
def str_has_sub (pat s : String) : Bool := chars_has_sub pat.data s.data

/-- Python `", ".join(xs)`. -/
def join_comma (xs : List String) : String := String.intercalate ", " xs

/-- `sorted(xs)[0]` for a nonempty list of strings: the lexicographically
smallest element under Python's code-point order. -/
def lex_min : List String → Option String
  | [] => none
  | s :: ss => some (ss.foldl (fun b t => if t < b then t else b) s)

/-- Python `l[-n:]`. -/
def last_n {α : Type} (n : Nat) (l : List α) : List α := l.drop (l.length - n)

/-! ### Data model (`schemas.py`) -/

inductive Phase
  | DISCUSSION | VOTING | DEFENSE | JUDGMENT | LAST_WORDS | NIGHT | GAME_OVER
deriving DecidableEq, Repr

/-- The `str` value of each `Phase` enum member. -/
def Phase.value : Phase → String
  | .DISCUSSION => "Discussion"
  | .VOTING => "Voting"
  | .DEFENSE => "Defense"
  | .JUDGMENT => "Judgment"
  | .LAST_WORDS => "Last Words"
  | .NIGHT => "Night"
  | .GAME_OVER => "Game Over"

inductive Role
  | VILLAGER | MAFIA | DETECTIVE
deriving DecidableEq, Repr

def Role.value : Role → String
  | .VILLAGER => "Villager"
  | .MAFIA => "Mafia"
  | .DETECTIVE => "Detective"

/-- `GameConfig.phase_durations`: the configured dictionary holds one entry
per playable phase (the `GAME_OVER` phase is never looked up by the code and
is mapped to 0 here). -/
structure PhaseDurations where
  discussion : Int
  voting : Int
  defense : Int
  judgment : Int
  last_words : Int
  night : Int
deriving DecidableEq, Repr

def PhaseDurations.get (d : PhaseDurations) : Phase → Int
  | .DISCUSSION => d.discussion
  | .VOTING => d.voting
  | .DEFENSE => d.defense
  | .JUDGMENT => d.judgment
  | .LAST_WORDS => d.last_words
  | .NIGHT => d.night
  | .GAME_OVER => 0

structure GameConfig where
  num_players : Int := 5
  num_mafia : Int := 1
  has_detective : Bool := true
  phase_durations : PhaseDurations :=
    { discussion := 45, voting := 30, defense := 20, judgment := 20,
      last_words := 5, night := 35 }
  model : String := "openai/gpt-3.5-turbo"
deriving DecidableEq, Repr

structure Player where
  id : String
  name : String
  role : Role
  is_alive : Bool := true
  private_memory : List String := []
  role_info : String := ""
deriving DecidableEq, Repr

/-- The payload dictionary of a transcript event.  Each field corresponds to
a key that some event constructor of the engine writes; absent keys are
`none` / the `Bool` default `false` (for the `"private"` key). -/
structure EventPayload where
  speaker : Option String := none
  text : Option String := none
  privateFlag : Bool := false
  killed : Option String := none
  role_revealed : Option String := none
  accusedName : Option String := none
  winner : Option String := none
  message : Option String := none
  verdict : Option String := none
  tally : Option (Nat × Nat × Nat) := none
  votesN : Option Nat := none
  seconds : Option Int := none
  duration : Option Int := none
  is_defense : Bool := false
deriving DecidableEq, Repr

/-- A transcript / broadcast event.  The Python dict also carries a `ts`
timestamp from `time.time()`, which no verified property depends on. -/
structure Event where
  etype : String
  game_id : String
  day : Int
  phase : String
  payload : EventPayload
deriving DecidableEq, Repr

/-- `GameState` exactly as declared in `schemas.py`.  Note that no
`mafia_transcript` field exists on the model. -/
structure GameState where
  game_id : String
  config : GameConfig
  day : Int := 1
  phase : Phase := Phase.DISCUSSION
  seconds_remaining : Int := 45
  players : List Player := []
  transcript : List Event := []
  is_paused : Bool := true
  accused_id : Option String := none
  last_phase_remaining_time : Option Int := none
  pending_kills : List String := []
  winner : Option String := none
  voting_complete : Bool := false
  mafia_votes_collected : Bool := false
  mafia_discussion_done : Bool := false
deriving Repr

/-- The structured decision returned by `call_openrouter` after coercion. -/
structure OracleResp where
  private_thought : String := "Thinking about the game..."
  public_text : String := ""
  action_type : String := "none"
  action_target : Option String := none
deriving DecidableEq, Repr

/-! ### `llm_openrouter.call_structured_vote` -/

/-- The characters removed by `raw_vote.strip('"\x27.,!? ')`. -/
def vote_strip_chars : List Char := ['"', '\'', '.', ',', '!', '?', ' ']

/-- Result of `call_structured_vote` as a function of the raw model reply
(`none` models an HTTP or parsing failure caught by the handler, and of the
`DUMMY_LLM` test switch).  Mirrors `llm_openrouter.py` lines 157-213. -/
def call_structured_vote_result (valid_targets : List String)
    (dummy : Bool) (raw : Option String) : String :=
  if dummy then
    -- testing fallback: first valid target, or "abstain" on an empty list
    (valid_targets.headD "abstain")
  else
    match raw with
    | none => "abstain"    -- httpx error / bad payload: except-handler result
    | some r =>
      let clean := py_lower (py_strip_set vote_strip_chars r)
      -- first pass: equality or mutual containment, case-insensitive
      match valid_targets.find? (fun t =>
          py_lower t == clean || str_has_sub clean (py_lower t) ||
          str_has_sub (py_lower t) clean) with
      | some t => t
      | none =>
        -- second pass: partial matching, skipping "abstain"
        match valid_targets.find? (fun t =>
            !(py_lower t == "abstain") &&
            (str_has_sub (py_lower t) clean || str_has_sub clean (py_lower t))) with
        | some t => t
        | none => "abstain"

/-! ### Engine helpers (`engine_graph.py`) -/

/-- Living players of a session. -/
def alive_players (g : GameState) : List Player := g.players.filter (·.is_alive)

/-- `len([p for p in players if p.role == MAFIA and p.is_alive])`. -/
def mafia_alive_count (g : GameState) : Nat :=
  (g.players.filter (fun p => p.role == Role.MAFIA && p.is_alive)).length

/-- `len([p for p in players if p.role != MAFIA and p.is_alive])`. -/
def town_alive_count (g : GameState) : Nat :=
  (g.players.filter (fun p => !(p.role == Role.MAFIA) && p.is_alive)).length

/-- `create_chat_event` / the inline chat-event dictionaries: a public chat
line by `speaker`. -/
def chat_event (g : GameState) (speaker text : String) : Event :=
  { etype := "chat", game_id := g.game_id, day := g.day, phase := g.phase.value,
    payload := { speaker := some speaker, text := some text } }

/-- One line of `build_transcript_summary`:
`payload.get('speaker', 'System') ++ ": " ++ payload.get('text', t['type'])`. -/
def summary_line (t : Event) : String :=
  (t.payload.speaker.getD "System") ++ ": " ++ (t.payload.text.getD t.etype)

/-- `build_transcript_summary(transcript, limit)` as the list of its lines
(the Python function joins them with a newline). -/
def build_transcript_summary_lines (transcript : List Event) (limit : Nat) :
    List String :=
  (last_n limit transcript).map summary_line

/-- The per-event predicate of the privacy filter in `get_player_action`
(`engine_graph.py` lines 103-123): public events always pass; a private
event passes only for the matching conspirator or detective viewer. -/
def gpa_filter_keep (viewer : Player) (t : Event) : Bool :=
  if !t.payload.privateFlag then true
  else
    let speaker := t.payload.speaker.getD ""
    let text := t.payload.text.getD ""
    if str_has_sub "[Mafia]" speaker && viewer.role == Role.MAFIA then true
    else if speaker == "System" && viewer.role == Role.MAFIA &&
        (str_has_sub "🗳️" text || str_has_sub "🎯" text ||
         str_has_sub "💤" text) then true
    else if speaker == "System" && str_has_sub "🕵️" text &&
        viewer.role == Role.DETECTIVE then true
    else false

/-- The filtered transcript embedded in the oracle context built by
`get_player_action`: last 15 events, privacy-filtered, last 10 kept. -/
def get_player_action_context (viewer : Player) (g : GameState) : List Event :=
  last_n 10 ((last_n 15 g.transcript).filter (gpa_filter_keep viewer))

/-- The transcript summary embedded (unfiltered) in the oracle prompt of
`_handle_opening_defense` and `_handle_defense_discussion`
(`engine_graph.py` lines 496-539: `build_transcript_summary(transcript)`,
default limit 10, with no privacy filtering). -/
def defense_opening_context_lines (g : GameState) : List String :=
  build_transcript_summary_lines g.transcript 10

/-! ### `handle_discussion`

The random draws of the speaker-selection policy are explicit inputs:
`mentionRoll` is the `random.random() < 0.7` outcome and the two indices
pick an element of the respective candidate pool (`random.choice`). -/

structure DiscussionRand where
  mentionRoll : Bool := false
  idxMention : Nat := 0
  idxFallback : Nat := 0
deriving DecidableEq, Repr

/-- Placeholder for a `random.choice` on a pool proven nonempty. -/
def default_player : Player :=
  { id := "", name := "", role := Role.VILLAGER, is_alive := false }

def pick_player (l : List Player) (i : Nat) : Player :=
  l.getD (i % l.length) default_player

/-- Speaker selection of `handle_discussion` (lines 155-192). -/
def discussion_speaker (g : GameState) (rnd : DiscussionRand) : Player :=
  let alive := alive_players g
  let recent_chats := (last_n 5 g.transcript).filter
    (fun t => t.etype == "chat" && !t.payload.privateFlag)
  let last_speaker : Option String :=
    (recent_chats.getLast?).map (fun c => c.payload.speaker.getD "")
  let mentioned : List Player :=
    match recent_chats.getLast? with
    | none => []
    | some c =>
      let last_text := py_lower (c.payload.text.getD "")
      alive.filter (fun p =>
        !(some p.name == last_speaker) && str_has_sub (py_lower p.name) last_text)
  let mention_pick : Option Player :=
    if !mentioned.isEmpty then
      let elig := mentioned.filter (fun p => !(some p.name == last_speaker))
      if !elig.isEmpty && rnd.mentionRoll then some (pick_player elig rnd.idxMention)
      else none
    else none
  match mention_pick with
  | some s => s
  | none =>
    let elig := alive.filter (fun p => !(some p.name == last_speaker))
    let elig := if elig.isEmpty then alive else elig
    pick_player elig rnd.idxFallback

/-- `handle_discussion` (lines 148-209).  Returns the updated state and the
list of events it appended (the caller broadcasts exactly that suffix). -/
def handle_discussion (g : GameState) (rnd : DiscussionRand) (resp : OracleResp) :
    GameState × List Event :=
  if (alive_players g).isEmpty then (g, [])
  else
    let speaker := discussion_speaker g rnd
    let evs := if resp.public_text != "" then [chat_event g speaker.name resp.public_text] else []
    let g := { g with transcript := g.transcript ++ evs }
    let g := { g with players := g.players.map (fun p =>
      if p.id == speaker.id then
        { p with private_memory := p.private_memory ++ [resp.private_thought] }
      else p) }
    (g, evs)

/-! ### Vote tallies (Python `dict` with insertion order as an assoc list) -/

/-- `tally.get(k, 0)`. -/
def tally_get (t : List (String × Nat)) (k : String) : Nat :=
  ((t.find? (·.1 == k)).map (·.2)).getD 0

/-- `if k not in tally: tally[k] = 0; tally[k] += 1` — increments in place,
or appends a fresh key at the end (Python dict insertion order). -/
def tally_add (t : List (String × Nat)) (k : String) : List (String × Nat) :=
  if t.any (·.1 == k) then
    t.map (fun kv => if kv.1 == k then (kv.1, kv.2 + 1) else kv)
  else t ++ [(k, 1)]

/-- The scan `for name, votes in tally.items(): if votes > most_votes: ...`
starting from `(None, 0)`: keeps the earliest-inserted maximum. -/
def tally_most (t : List (String × Nat)) : Option String × Nat :=
  t.foldl (fun acc kv => if kv.2 > acc.2 then (some kv.1, kv.2) else acc)
    ((none : Option String), 0)

/-- `max(tally.values(), default 0)`. -/
def tally_max (t : List (String × Nat)) : Nat :=
  t.foldl (fun m kv => max m kv.2) 0

/-! ### `collect_day_votes` (engine_graph.py lines 965-1100)

The per-voter oracle outcomes are a function from voter name to the vote
string returned by `call_structured_vote` for that voter. -/

/-- Target resolution for one day vote (lines 1012-1014): `next(p for p in
players if p.name.lower() == vote.lower() and p.is_alive and p.id != voter.id)`. -/
def day_vote_target (players : List Player) (voter : Player) (vote : String) :
    Option Player :=
  if py_lower vote == "abstain" then none
  else players.find? (fun p =>
    py_lower p.name == py_lower vote && p.is_alive && !(p.id == voter.id))

/-- The nomination tally: one pass over the living voters in roster order
(only the transcript changes during the pass, so target resolution reads the
unchanged roster). -/
def day_tally (players : List Player) (alive : List Player)
    (votes : String → String) : List (String × Nat) :=
  alive.foldl (fun tal voter =>
    match day_vote_target players voter (votes voter.name) with
    | some tgt => tally_add tal tgt.name
    | none => tal) []

/-- `votes_needed = (len(alive_players) + 1) // 2` = ⌈n/2⌉. -/
def day_votes_needed (alive : List Player) : Nat := (alive.length + 1) / 2

/-- The accused chosen by `collect_day_votes` (lines 1052-1100): the
strict-improvement scan of the tally, accepted when it meets the threshold,
then resolved to the first living player of that name. -/
def day_accused (g : GameState) (votes : String → String) : Option Player :=
  let alive := alive_players g
  if alive.length < 2 then none
  else
    let tal := day_tally g.players alive votes
    match tally_most tal with
    | (some mn, most) =>
      if most ≥ day_votes_needed alive then
        g.players.find? (fun p => p.name == mn && p.is_alive)
      else none
    | (none, _) => none

/-- The per-voter transcript event of `collect_day_votes`: a vote line when
the target resolves, an abstain line otherwise. -/
def day_vote_event (g : GameState) (voter : Player) (votes : String → String) :
    Event :=
  match day_vote_target g.players voter (votes voter.name) with
  | some tgt =>
    { etype := "chat", game_id := g.game_id, day := g.day, phase := g.phase.value,
      payload := { speaker := some "System",
                   text := some ("🗳️ " ++ voter.name ++ " votes for " ++ tgt.name) } }
  | none =>
    { etype := "chat", game_id := g.game_id, day := g.day, phase := g.phase.value,
      payload := { speaker := some "System",
                   text := some ("⏭️ " ++ voter.name ++ " abstains") } }

/-- The results / trial / no-trial announcements at the end of the pass.
The vote-summary text sorts the tally; its exact wording plays no role in
any property, the event is in any case a public System chat line. -/
def day_results_event (g : GameState) (txt : String) : Event :=
  { etype := "chat", game_id := g.game_id, day := g.day, phase := g.phase.value,
    payload := { speaker := some "System", text := some txt } }

/-- `collect_day_votes`: state, appended events, and the accused (if any).

When the threshold is met the trial line is appended and the accused
returned; when the scan has a leader below threshold or no votes were cast
the no-majority line is appended; in the (roster-impossible) case that the
leader's name matches no living player, Python falls through both `if`
bodies and appends neither line. -/
def collect_day_votes (g : GameState) (votes : String → String) :
    GameState × List Event × Option Player :=
  let alive := alive_players g
  if alive.length < 2 then (g, [], none)
  else
    let vote_evs := alive.map (fun voter => day_vote_event g voter votes)
    let tal := day_tally g.players alive votes
    let results := day_results_event g
      ("📊 RESULTS: votes recorded. Need " ++
        toString (day_votes_needed alive) ++ " to nominate.")
    let tail : List Event :=
      match tally_most tal with
      | (some mn, most) =>
        if most ≥ day_votes_needed alive then
          match g.players.find? (fun p => p.name == mn && p.is_alive) with
          | some accused =>
            [day_results_event g ("⚖️ " ++ accused.name ++ " is PUT ON TRIAL with "
              ++ toString most ++ " votes!")]
          | none => []
        else [day_results_event g "❌ No majority reached. Night falls..."]
      | (none, _) => [day_results_event g "❌ No majority reached. Night falls..."]
    let evs := vote_evs ++ [results] ++ tail
    ({ g with transcript := g.transcript ++ evs }, evs, day_accused g votes)

/-! ### `collect_mafia_votes` (engine_graph.py lines 1103-1202) -/

/-- `[p.name for p in players if p.is_alive and p.role != MAFIA]`. -/
def mafia_valid_target_names (g : GameState) : List String :=
  ((g.players.filter (fun p => p.is_alive && !(p.role == Role.MAFIA))).map (·.name))

/-- The raw kill-vote tally over living conspirators (the `"abstain"` key is
tallied like any other vote). -/
def mafia_tally (mafia : List Player) (votes : String → String) :
    List (String × Nat) :=
  mafia.foldl (fun tal m => tally_add tal (votes m.name)) []

/-- `player_votes = {k: v for k, v in tally.items() if k.lower() != "abstain"}`. -/
def mafia_player_votes (tal : List (String × Nat)) : List (String × Nat) :=
  tal.filter (fun kv => !(py_lower kv.1 == "abstain"))

/-- Kill-vote resolution (lines 1170-1175): highest count, ties broken by
`sorted(top_targets)[0]`. -/
def mafia_choice (tal : List (String × Nat)) : Option String :=
  let pv := mafia_player_votes tal
  if pv.isEmpty then none
  else
    let mx := tally_max pv
    lex_min ((pv.filter (fun kv => kv.2 == mx)).map (·.1))

/-- Target lookup for the chosen name (lines 1177-1178). -/
def mafia_kill_target (g : GameState) (chosen : String) : Option Player :=
  g.players.find? (fun p =>
    py_lower p.name == py_lower chosen && p.is_alive && !(p.role == Role.MAFIA))

/-- A conspirator-only System line (payload `"private": True`). -/
def mafia_system_event (g : GameState) (txt : String) : Event :=
  { etype := "chat", game_id := g.game_id, day := g.day, phase := g.phase.value,
    payload := { speaker := some "System", text := some txt, privateFlag := true } }

/-- `collect_mafia_votes`: appends the private per-vote lines and either the
private target line (setting `pending_kills` to exactly that target) or the
private all-abstain line.  No event of this function is broadcast by its
caller. -/
def collect_mafia_votes (g : GameState) (votes : String → String) :
    GameState × List Event :=
  let mafia := g.players.filter (fun p => p.role == Role.MAFIA && p.is_alive)
  if mafia.isEmpty then (g, [])
  else if (mafia_valid_target_names g).isEmpty then (g, [])
  else
    let vote_evs := mafia.map (fun m =>
      mafia_system_event g ("🗳️ " ++ m.name ++ " votes: " ++ votes m.name))
    let tal := mafia_tally mafia votes
    match mafia_choice tal with
    | some chosen =>
      match mafia_kill_target g chosen with
      | some target =>
        let evs := vote_evs ++ [mafia_system_event g ("🎯 Target: " ++ target.name)]
        ({ g with transcript := g.transcript ++ evs,
                  pending_kills := [target.id] }, evs)
      | none =>
        -- `if target:` has no else-branch: votes recorded, nothing resolved
        ({ g with transcript := g.transcript ++ vote_evs }, vote_evs)
    | none =>
      let evs := vote_evs ++ [mafia_system_event g "💤 Mafia chose not to kill tonight."]
      ({ g with transcript := g.transcript ++ evs }, evs)

/-! ### `handle_judgment` (engine_graph.py lines 642-763)

The judgment votes are a function from voter name to the string returned by
`call_structured_vote(..., valid_targets=["guilty","innocent","abstain"])`;
by the oracle-client contract the value is one of those three strings (the
Python `tally[vote] += 1` would raise `KeyError` otherwise). -/

/-- `next((p for p in players if p.id == accused_id), None)`. -/
def find_accused (g : GameState) : Option Player :=
  g.players.find? (fun p => g.accused_id == some p.id)

/-- The judgment electorate: every living player except the accused. -/
def judgment_voters (g : GameState) : List Player :=
  g.players.filter (fun p => p.is_alive && !(g.accused_id == some p.id))

def judgment_count (g : GameState) (jv : String → String) (v : String) : Nat :=
  ((judgment_voters g).filter (fun p => jv p.name == v)).length

/-- `verdict = "guilty" if tally["guilty"] > tally["innocent"] else "innocent"`. -/
def judgment_verdict (g : GameState) (jv : String → String) : String :=
  if judgment_count g jv "guilty" > judgment_count g jv "innocent" then "guilty"
  else "innocent"

def judgment_vote_emoji (v : String) : String :=
  if v == "guilty" then "🔴" else if v == "innocent" then "🟢" else "⚪"

/-- `handle_judgment`: state and appended events. -/
def handle_judgment (g : GameState) (jv : String → String) :
    GameState × List Event :=
  match find_accused g with
  | none => ({ g with phase := Phase.VOTING }, [])
  | some accused =>
    let voters := judgment_voters g
    if voters.isEmpty then (g, [])
    else
      let start_ev := day_results_event g
        ("⚖️ JUDGMENT TIME: The town will now vote on " ++ accused.name ++
         "'s fate. Vote GUILTY, INNOCENT, or ABSTAIN.")
      let vote_evs := voters.map (fun v =>
        day_results_event g
          (judgment_vote_emoji (jv v.name) ++ " " ++ v.name ++ " votes " ++
           py_upper (jv v.name)))
      let gc := judgment_count g jv "guilty"
      let ic := judgment_count g jv "innocent"
      let ac := judgment_count g jv "abstain"
      let verdict := judgment_verdict g jv
      let verdict_ev : Event :=
        { etype := "trial_verdict", game_id := g.game_id, day := g.day,
          phase := g.phase.value,
          payload := { accusedName := some accused.name, verdict := some verdict,
                       tally := some (gc, ic, ac),
                       message := some ("📜 VERDICT: " ++ accused.name ++
                         " has been found " ++ py_upper verdict ++ "!") } }
      if verdict == "guilty" then
        let evs := [start_ev] ++ vote_evs ++ [verdict_ev]
        ({ g with transcript := g.transcript ++ evs,
                  phase := Phase.LAST_WORDS,
                  seconds_remaining := g.config.phase_durations.get Phase.LAST_WORDS },
         evs)
      else
        -- `remaining_time = last_phase_remaining_time or 0` (0 and None are
        -- both falsy, so this is `getD 0`)
        let remaining := g.last_phase_remaining_time.getD 0
        let secs := max (remaining - 10) 5
        let innocent_ev := day_results_event
          { g with phase := Phase.VOTING }
          ("✅ " ++ accused.name ++
           " has been found INNOCENT and returns to the town.")
        let evs := [start_ev] ++ vote_evs ++ [verdict_ev] ++ [innocent_ev]
        ({ g with transcript := g.transcript ++ evs,
                  phase := Phase.VOTING,
                  seconds_remaining := secs,
                  accused_id := none }, evs)

/-! ### `handle_last_words` (engine_graph.py lines 765-815) -/

/-- `handle_last_words`: optional final statement, execution of the accused,
public reveal, memory updates, then Night. -/
def handle_last_words (g : GameState) (resp : OracleResp) :
    GameState × List Event :=
  match find_accused g with
  | some accused =>
    let last_ev := if resp.public_text != "" then [chat_event g accused.name resp.public_text] else []
    let execution_ev : Event :=
      { etype := "execution", game_id := g.game_id, day := g.day,
        phase := g.phase.value,
        payload := { killed := some accused.name,
                     role_revealed := some accused.role.value } }
    let death_ev := day_results_event g
      ("☠️ " ++ accused.name ++ " has been executed! They were a **" ++
       accused.role.value ++ "**.")
    let evs := last_ev ++ [execution_ev, death_ev]
    let g := { g with
      transcript := g.transcript ++ evs,
      players := g.players.map (fun (p : Player) =>
        let p := if p.id == accused.id then { p with is_alive := false } else p
        { p with private_memory := p.private_memory ++
            ["REVEALED: " ++ accused.name ++ " was " ++ accused.role.value ++
             " (executed Day " ++ toString g.day ++ ")"] }) }
    ({ g with accused_id := none, phase := Phase.NIGHT,
              seconds_remaining := g.config.phase_durations.get Phase.NIGHT }, evs)
  | none =>
    ({ g with accused_id := none, phase := Phase.NIGHT,
              seconds_remaining := g.config.phase_durations.get Phase.NIGHT }, [])

/-! ### `check_win_condition` (routes.py lines 16-53) -/

def game_over_event (g : GameState) (w msg : String) : Event :=
  { etype := "game_over", game_id := g.game_id, day := g.day,
    phase := g.phase.value,
    payload := { winner := some w, message := some msg } }

/-- `check_win_condition`: state, broadcast events, and whether the game
ended.  Note the order: a town with zero conspirators wins first; then
conspirator parity (`mafia >= town`) ends the game for the conspirators. -/
def check_win_condition (g : GameState) : GameState × List Event × Bool :=
  if mafia_alive_count g == 0 then
    let g1 := { g with winner := some "TOWN", phase := Phase.GAME_OVER }
    let ev := game_over_event g1 "TOWN" "🎉 TOWN WINS! All mafia have been eliminated!"
    ({ g1 with transcript := g1.transcript ++ [ev] }, [ev], true)
  else if mafia_alive_count g ≥ town_alive_count g then
    let g1 := { g with winner := some "MAFIA", phase := Phase.GAME_OVER }
    let ev := game_over_event g1 "MAFIA" "💀 MAFIA WINS! They now control the town!"
    ({ g1 with transcript := g1.transcript ++ [ev] }, [ev], true)
  else (g, [], false)

/-! ### Session creation (`routes.py` lines 305-338)

The `random.shuffle` outcome is the explicit `roles` list (the shuffled
role assignment); the session id is a parameter in place of `uuid4()`. -/

/-- Teammate list for a conspirator's briefing:
`[Player_j for j, r in enumerate(roles) if r == MAFIA and i != j]`. -/
def mafia_teammates (i : Nat) (roles : List Role) : List String :=
  (roles.enum.filter (fun jr => jr.2 == Role.MAFIA && !(jr.1 == i))).map
    (fun jr => "Player_" ++ toString jr.1)

def create_player (i : Nat) (roles : List Role) : Player :=
  let role := roles.getD i Role.VILLAGER
  let nm := "Player_" ++ toString i
  let info := "Your name is " ++ nm ++ ". You are " ++ role.value ++ "."
  let info := if role == Role.MAFIA then
      info ++ " Your teammates: " ++ join_comma (mafia_teammates i roles)
    else info
  { id := nm, name := nm, role := role, role_info := info }

/-- `create_new_game`: the initializer first computes
`10 if durations[Discussion] > 10 else durations[Discussion]` and the next
statement unconditionally overwrites `seconds_remaining` with 10
(routes.py line 336). -/
def create_game_state (cfg : GameConfig) (roles : List Role) (gid : String) :
    GameState :=
  let players := (List.range cfg.num_players.toNat).map (fun i => create_player i roles)
  let s0 : Int := if cfg.phase_durations.get Phase.DISCUSSION > 10 then 10
                  else cfg.phase_durations.get Phase.DISCUSSION
  let g : GameState :=
    { game_id := gid, config := cfg, day := 1, phase := Phase.DISCUSSION,
      seconds_remaining := s0, players := players }
  { g with seconds_remaining := 10 }

/-! ### `advance_game` (`routes.py` lines 94-303)

All nondeterministic inputs of one engine step. -/

structure StepInput where
  rnd : DiscussionRand := {}
  discResp : OracleResp := {}
  dayVotes : String → String := fun _ => "abstain"
  jVotes : String → String := fun _ => "abstain"
  mafiaVotes : String → String := fun _ => "abstain"
  lwResp : OracleResp := {}

/-- The intra-phase step (`advance_game` with `is_timer_tick=False`).

`phase_to_node` maps Discussion, Defense and Night to graph nodes, but the
compiled graph has the fixed entry point `"discussion"` (the comment at
routes.py line 181 notes the wrong entry point), so `graph.ainvoke` runs
`handle_discussion` for each of the three mapped phases.  The events the
handler appended — `game.transcript[old_transcript_len:]` — are broadcast in
append order. -/
def micro_step (g : GameState) (inp : StepInput) : GameState × List Event :=
  if g.phase == Phase.DISCUSSION || g.phase == Phase.DEFENSE ||
     g.phase == Phase.NIGHT then
    handle_discussion g inp.rnd inp.discResp
  else (g, [])

/-- The `phase_start` broadcast issued at routes.py lines 295-301 (not
appended to the transcript). -/
def phase_start_event (g : GameState) : Event :=
  { etype := "phase_start", game_id := g.game_id, day := g.day,
    phase := g.phase.value, payload := { duration := some g.seconds_remaining } }

/-- The `phase_tick` broadcast of the timer loop (routes.py lines 81-87). -/
def phase_tick_event (g : GameState) : Event :=
  { etype := "phase_tick", game_id := g.game_id, day := g.day,
    phase := g.phase.value, payload := { seconds := some g.seconds_remaining } }

/-- Timer expiry of the Discussion phase (routes.py lines 125-163): day 1
jumps straight to Night with no vote collection; later days announce,
collect the nomination votes, and go to Defense or Night. -/
def discussion_expiry (g : GameState) (inp : StepInput) :
    GameState × List Event :=
  if g.day == 1 then
    let g1 := { g with phase := Phase.NIGHT,
                       seconds_remaining := g.config.phase_durations.get Phase.NIGHT,
                       mafia_discussion_done := false,
                       mafia_votes_collected := false }
    (g1, [phase_start_event g1])
  else
    let announce := day_results_event g
      "🗳️ VOTING TIME! Each player will now be asked who they want to put on trial..."
    let g1 := { g with transcript := g.transcript ++ [announce] }
    let cdv := collect_day_votes g1 inp.dayVotes
    let g3 :=
      match cdv.2.2 with
      | some a => { cdv.1 with accused_id := some a.id, phase := Phase.DEFENSE,
                               seconds_remaining := g.config.phase_durations.get Phase.DEFENSE }
      | none => { cdv.1 with phase := Phase.NIGHT,
                             seconds_remaining := g.config.phase_durations.get Phase.NIGHT,
                             mafia_discussion_done := false,
                             mafia_votes_collected := false }
    (g3, [announce] ++ cdv.2.1 ++ [phase_start_event g3])

/-- Timer expiry of the Defense phase (routes.py lines 165-216): judgment is
run directly; a guilty verdict continues straight into last words, the
execution and the win check; an innocent verdict, which `handle_judgment`
sent back to Voting, is overridden to Night; a state still in Judgment falls
back to Night as well. -/
def judgment_announce_event (g : GameState) : Event :=
  { etype := "chat", game_id := g.game_id, day := g.day, phase := "Judgment",
    payload := { speaker := some "System",
                 text := some "⚖️ JUDGMENT TIME! Each player will now vote on the accused's fate..." } }

def defense_expiry (g : GameState) (inp : StepInput) : GameState × List Event :=
  let announce : Event := judgment_announce_event g
  let g1 := { g with transcript := g.transcript ++ [announce], phase := Phase.JUDGMENT }
  let hj := handle_judgment g1 inp.jVotes
  let g2 := hj.1
  let hl :=
    if g2.phase == Phase.LAST_WORDS then handle_last_words g2 inp.lwResp
    else (g2, [])
  let cw :=
    if g2.phase == Phase.LAST_WORDS then check_win_condition hl.1
    else (hl.1, [], false)
  if cw.2.2 then (cw.1, [announce] ++ hj.2 ++ hl.2 ++ cw.2.1)
  else
    let g5 :=
      if cw.1.phase == Phase.VOTING then
        { cw.1 with phase := Phase.NIGHT,
                    seconds_remaining := g.config.phase_durations.get Phase.NIGHT,
                    accused_id := none }
      else cw.1
    let g6 :=
      if g5.phase == Phase.JUDGMENT then
        { g5 with phase := Phase.NIGHT,
                  seconds_remaining := g.config.phase_durations.get Phase.NIGHT,
                  accused_id := none }
      else g5
    (g6, [announce] ++ hj.2 ++ hl.2 ++ cw.2.1 ++ [phase_start_event g6])

/-- Timer expiry of the Last Words phase (routes.py lines 224-236): the
graph is invoked (running the discussion node, by the fixed entry point),
then the win check; the phase is not changed here. -/
def last_words_expiry (g : GameState) (inp : StepInput) :
    GameState × List Event :=
  let hd := handle_discussion g inp.rnd inp.discResp
  let cw := check_win_condition hd.1
  if cw.2.2 then (cw.1, hd.2 ++ cw.2.1)
  else (cw.1, hd.2 ++ cw.2.1 ++ [phase_start_event cw.1])

/-- Timer expiry of the Night phase (routes.py lines 238-292).  The branch
first builds the private announcement and then evaluates
`game.mafia_transcript.append(...)`; `GameState` (schemas.py) declares no
`mafia_transcript` field, so this attribute access raises `AttributeError`
before the mafia votes, the detective investigation, the day advance, the
morning kills or the win check can run, and before anything is broadcast.
No state field has been mutated at that point. -/
def night_expiry (_g : GameState) (_inp : StepInput) : Except String Unit :=
  Except.error "AttributeError: 'GameState' object has no attribute 'mafia_transcript'"

/-- `advance_game` with `is_timer_tick=True`: the per-phase dispatch.  A
phase with no matching branch (Voting, Game Over) only gets the
`phase_start` broadcast of line 295. -/
def advance_timer_expiry (g : GameState) (inp : StepInput) :
    Except String (GameState × List Event) :=
  match g.phase with
  | Phase.DISCUSSION => .ok (discussion_expiry g inp)
  | Phase.DEFENSE => .ok (defense_expiry g inp)
  | Phase.JUDGMENT =>
    -- routes.py lines 218-222: fail safe to night
    let g1 := { g with phase := Phase.NIGHT,
                       seconds_remaining := g.config.phase_durations.get Phase.NIGHT,
                       accused_id := none }
    .ok (g1, [phase_start_event g1])
  | Phase.LAST_WORDS => .ok (last_words_expiry g inp)
  | Phase.NIGHT =>
    match night_expiry g inp with
    | .error e => .error e
    | .ok _ => .ok (g, [])
  | _ => .ok (g, [phase_start_event g])

/-- One unpaused iteration of `game_loop` (routes.py lines 62-90): with time
on the clock, an (at most five-secondly) micro-step, the decrement, and the
tick broadcast; at zero, the end-of-phase transition. -/
def loop_tick (g : GameState) (inp : StepInput) :
    Except String (GameState × List Event) :=
  if g.seconds_remaining > 0 then
    let ms :=
      if (g.phase == Phase.DISCUSSION || g.phase == Phase.NIGHT ||
          g.phase == Phase.DEFENSE) && g.seconds_remaining % 5 == 0 then
        micro_step g inp
      else (g, [])
    let g2 := { ms.1 with seconds_remaining := ms.1.seconds_remaining - 1 }
    .ok (g2, ms.2 ++ [phase_tick_event g2])
  else advance_timer_expiry g inp

/-- The stored session state after one loop iteration: on the
`AttributeError` of the night branch the exception propagates before any
field of the in-place-mutated session object was changed, so the registry
still holds the unchanged state (and the background task dies). -/
def loop_tick_state (g : GameState) (inp : StepInput) : GameState :=
  match loop_tick g inp with
  | .ok (g', _) => g'
  | .error _ => g

/-- The events delivered to the stream subscribers by one loop iteration. -/
def loop_tick_broadcasts (g : GameState) (inp : StepInput) : List Event :=
  match loop_tick g inp with
  | .ok (_, b) => b
  | .error _ => []

/-! ### `get_game_status` (`routes.py` lines 368-375)

`game.dict()` produces one key per declared `GameState` field — there is no
`mafia_transcript` key — and the endpoint then pops `"mafia_transcript"`
with a default. -/

inductive DictVal
  | vStr : String → DictVal
  | vOptStr : Option String → DictVal
  | vInt : Int → DictVal
  | vOptInt : Option Int → DictVal
  | vBool : Bool → DictVal
  | vConfig : GameConfig → DictVal
  | vPlayers : List Player → DictVal
  | vEvents : List Event → DictVal
  | vStrList : List String → DictVal
deriving DecidableEq

/-- `game.dict()`: the pydantic field dictionary of a session, in field
order. -/
def game_dict (g : GameState) : List (String × DictVal) :=
  [("game_id", .vStr g.game_id),
   ("config", .vConfig g.config),
   ("day", .vInt g.day),
   ("phase", .vStr g.phase.value),
   ("seconds_remaining", .vInt g.seconds_remaining),
   ("players", .vPlayers g.players),
   ("transcript", .vEvents g.transcript),
   ("is_paused", .vBool g.is_paused),
   ("accused_id", .vOptStr g.accused_id),
   ("last_phase_remaining_time", .vOptInt g.last_phase_remaining_time),
   ("pending_kills", .vStrList g.pending_kills),
   ("winner", .vOptStr g.winner),
   ("voting_complete", .vBool g.voting_complete),
   ("mafia_votes_collected", .vBool g.mafia_votes_collected),
   ("mafia_discussion_done", .vBool g.mafia_discussion_done)]

/-- `data.pop(k, None)`. -/
def pop_key (k : String) (d : List (String × DictVal)) :
    List (String × DictVal) :=
  d.filter (fun kv => !(kv.1 == k))

def dict_lookup (k : String) (d : List (String × DictVal)) : Option DictVal :=
  (d.find? (·.1 == k)).map (·.2)

/-- The response body of `GET /games/{id}`. -/
def get_game_status_response (g : GameState) : List (String × DictVal) :=
  pop_key "mafia_transcript" (game_dict g)

/-- The session state after a timer-expiry transition (the `AttributeError`
of the night branch propagates before any field was mutated, leaving the
stored state unchanged). -/
def advance_expiry_state (g : GameState) (inp : StepInput) : GameState :=
  match advance_timer_expiry g inp with
  | .ok (g', _) => g'
  | .error _ => g

/-! ### Concrete sessions used by the counterexamples and witnesses -/

def mk_player (nm : String) (r : Role) : Player := { id := nm, name := nm, role := r }

/-- A session mid-trial: the accused is a Villager and the transcript still
holds, among its last ten events, a conspirator-only chat line and the
detective's private investigation result from the previous night. -/
def ev_c1_pub : Event :=
  { etype := "chat", game_id := "g1", day := 1, phase := "Discussion",
    payload := { speaker := some "Player_2", text := some "I suspect Player_0." } }

def ev_c1_mafia : Event :=
  { etype := "chat", game_id := "g1", day := 1, phase := "Night",
    payload := { speaker := some "[Mafia] Player_0",
                 text := some "Let us kill Player_2 tonight.",
                 privateFlag := true } }

def ev_c1_det : Event :=
  { etype := "chat", game_id := "g1", day := 1, phase := "Night",
    payload := { speaker := some "System", text := some "🕵️ Player_0 is MAFIA",
                 privateFlag := true } }

def ev_c1_trial : Event :=
  { etype := "chat", game_id := "g1", day := 2, phase := "Discussion",
    payload := { speaker := some "System",
                 text := some "⚖️ Player_1 is PUT ON TRIAL with 2 votes!" } }

def p_c1_accused : Player := mk_player "Player_1" Role.VILLAGER

def g_c1 : GameState :=
  { game_id := "g1", config := {}, day := 2, phase := Phase.DEFENSE,
    seconds_remaining := 20,
    players := [mk_player "Player_0" Role.MAFIA, p_c1_accused,
                mk_player "Player_2" Role.VILLAGER, mk_player "Player_3" Role.DETECTIVE],
    transcript := [ev_c1_pub, ev_c1_mafia, ev_c1_det, ev_c1_trial],
    accused_id := some "Player_1" }

/-- A running Discussion tick (3 seconds on the clock, not a micro-step
second). -/
def g_c2 : GameState :=
  { game_id := "g2", config := {}, day := 1, phase := Phase.DISCUSSION,
    seconds_remaining := 3,
    players := [mk_player "Player_0" Role.MAFIA, mk_player "Player_1" Role.VILLAGER] }

def ev_c2 : Event := phase_tick_event { g_c2 with seconds_remaining := 2 }

/-- A Defense-phase expiry whose judgment votes acquit the accused. -/
def g_c3 : GameState :=
  { game_id := "g3", config := {}, day := 2, phase := Phase.DEFENSE,
    seconds_remaining := 0,
    players := [mk_player "Player_0" Role.MAFIA, mk_player "Player_1" Role.VILLAGER,
                mk_player "Player_2" Role.VILLAGER],
    accused_id := some "Player_1" }

def jv_c3 : String → String := fun _ => "innocent"

def inp_c3 : StepInput := { jVotes := jv_c3 }

/-- Four living players whose nomination votes split two against two: both
targets reach the ⌈4/2⌉ = 2 threshold. -/
def g_c4 : GameState :=
  { game_id := "g4", config := {}, day := 2, phase := Phase.DISCUSSION,
    seconds_remaining := 0,
    players := [mk_player "Player_0" Role.VILLAGER, mk_player "Player_1" Role.MAFIA,
                mk_player "Player_2" Role.VILLAGER, mk_player "Player_3" Role.VILLAGER] }

def v_c4 : String → String := fun n =>
  if n == "Player_0" then "Player_1"
  else if n == "Player_3" then "Player_1"
  else "Player_0"

/-- A night kill-vote round: one living conspirator, two targets. -/
def g_c5 : GameState :=
  { game_id := "g5", config := {}, day := 2, phase := Phase.NIGHT,
    seconds_remaining := 0,
    players := [mk_player "Player_0" Role.MAFIA, mk_player "Player_1" Role.VILLAGER,
                mk_player "Player_2" Role.VILLAGER] }

def v_c5 : String → String := fun _ => "Player_2"

/-- A session at Night expiry (the branch that raises). -/
def g_c6_night : GameState :=
  { game_id := "g6", config := {}, day := 1, phase := Phase.NIGHT,
    seconds_remaining := 0,
    players := [mk_player "Player_0" Role.MAFIA, mk_player "Player_1" Role.VILLAGER,
                mk_player "Player_2" Role.VILLAGER, mk_player "Player_3" Role.DETECTIVE] }

/-- One living conspirator against one living town member: parity. -/
def g_c6_parity : GameState :=
  { game_id := "g6p", config := {}, day := 3, phase := Phase.NIGHT,
    players := [mk_player "Player_0" Role.MAFIA, mk_player "Player_1" Role.VILLAGER,
                { mk_player "Player_2" Role.VILLAGER with is_alive := false }] }

/-- No living conspirator. -/
def g_c6_town : GameState :=
  { game_id := "g6t", config := {}, day := 3, phase := Phase.DISCUSSION,
    players := [{ mk_player "Player_0" Role.MAFIA with is_alive := false },
                mk_player "Player_1" Role.VILLAGER, mk_player "Player_2" Role.VILLAGER] }

/-- One conspirator against three town members: the game goes on. -/
def g_c6_going : GameState :=
  { game_id := "g6g", config := {}, day := 2, phase := Phase.DISCUSSION,
    players := [mk_player "Player_0" Role.MAFIA, mk_player "Player_1" Role.VILLAGER,
                mk_player "Player_2" Role.VILLAGER, mk_player "Player_3" Role.DETECTIVE] }

/-- A plain running session for the timer-invariant witness. -/
def g_c8 : GameState :=
  { game_id := "g8", config := {}, day := 1, phase := Phase.DISCUSSION,
    seconds_remaining := 10,
    players := [mk_player "Player_0" Role.MAFIA, mk_player "Player_1" Role.VILLAGER] }

/-! ## Generic lemmas about the tally folds -/

/-- The strict-improvement scan tracks the running maximum of the tally and
either keeps its initial accumulator or lands on an entry of the list. -/
theorem tally_fold_spec (t : List (String × Nat)) :
    ∀ acc : Option String × Nat,
      (t.foldl (fun a kv => if kv.2 > a.2 then (some kv.1, kv.2) else a) acc).2 =
        t.foldl (fun m kv => max m kv.2) acc.2 ∧
      ((t.foldl (fun a kv => if kv.2 > a.2 then (some kv.1, kv.2) else a) acc) = acc ∨
        ∃ k, (t.foldl (fun a kv => if kv.2 > a.2 then (some kv.1, kv.2) else a) acc).1 = some k ∧
          (k, (t.foldl (fun a kv => if kv.2 > a.2 then (some kv.1, kv.2) else a) acc).2) ∈ t) := by
  induction t with
  | nil => exact fun acc => ⟨rfl, Or.inl rfl⟩
  | cons kv t ih =>
    intro acc
    simp only [List.foldl_cons]
    obtain ⟨h1, h2⟩ := ih (if kv.2 > acc.2 then (some kv.1, kv.2) else acc)
    have hsnd : (if kv.2 > acc.2 then (some kv.1, kv.2) else acc).2 = max acc.2 kv.2 := by
      by_cases h : kv.2 > acc.2 <;> simp [h] <;> omega
    refine ⟨by rw [h1, hsnd], ?_⟩
    rcases h2 with h2 | ⟨k, hk1, hk2⟩
    · by_cases h : kv.2 > acc.2
      · right
        rw [h2]
        simp [h]
      · left
        rw [h2]
        simp [h]
    · exact Or.inr ⟨k, hk1, List.mem_cons_of_mem _ hk2⟩

theorem foldl_max_init (t : List (String × Nat)) :
    ∀ m, t.foldl (fun m kv => max m kv.2) m =
      max m (t.foldl (fun m kv => max m kv.2) 0) := by
  induction t with
  | nil => intro m; simp
  | cons kv t ih =>
    intro m
    simp only [List.foldl_cons]
    rw [ih (max m kv.2), ih (max 0 kv.2)]
    omega

theorem tally_max_cons (a : String × Nat) (t : List (String × Nat)) :
    tally_max (a :: t) = max a.2 (tally_max t) := by
  simp only [tally_max, List.foldl_cons]
  rw [foldl_max_init t (max 0 a.2)]
  omega

theorem tally_most_snd (t : List (String × Nat)) : (tally_most t).2 = tally_max t := by
  have h := (tally_fold_spec t ((none : Option String), 0)).1
  simpa [tally_most, tally_max] using h

theorem tally_most_some_mem (t : List (String × Nat)) (k : String)
    (h : (tally_most t).1 = some k) : (k, tally_max t) ∈ t := by
  rcases (tally_fold_spec t ((none : Option String), 0)).2 with h2 | ⟨k', hk1, hk2⟩
  · rw [show tally_most t = t.foldl
        (fun a kv => if kv.2 > a.2 then (some kv.1, kv.2) else a)
        ((none : Option String), 0) from rfl, h2] at h
    exact absurd h (by simp)
  · have hk : k' = k := by
      have := hk1
      rw [show t.foldl (fun a kv => if kv.2 > a.2 then (some kv.1, kv.2) else a)
        ((none : Option String), 0) = tally_most t from rfl] at this
      rw [h] at this
      exact (Option.some.injEq _ _ ▸ this).symm
    subst hk
    have := hk2
    rw [show t.foldl (fun a kv => if kv.2 > a.2 then (some kv.1, kv.2) else a)
      ((none : Option String), 0) = tally_most t from rfl, tally_most_snd] at this
    exact this

theorem tally_most_none (t : List (String × Nat))
    (h : (tally_most t).1 = none) : tally_max t = 0 := by
  rcases (tally_fold_spec t ((none : Option String), 0)).2 with h2 | ⟨k', hk1, _⟩
  · have := tally_most_snd t
    rw [show tally_most t = t.foldl
        (fun a kv => if kv.2 > a.2 then (some kv.1, kv.2) else a)
        ((none : Option String), 0) from rfl, h2] at this
    exact this.symm
  · rw [show t.foldl (fun a kv => if kv.2 > a.2 then (some kv.1, kv.2) else a)
      ((none : Option String), 0) = tally_most t from rfl, h] at hk1
    exact absurd hk1 (by simp)

theorem tally_max_le_of_mem (t : List (String × Nat)) (kv : String × Nat)
    (h : kv ∈ t) : kv.2 ≤ tally_max t := by
  induction t with
  | nil => cases h
  | cons a t ih =>
    have hmax := tally_max_cons a t
    rcases List.mem_cons.mp h with h | h
    · subst h; omega
    · have := ih h; omega

theorem tally_max_attained (t : List (String × Nat)) (h : t ≠ []) :
    ∃ kv ∈ t, kv.2 = tally_max t := by
  induction t with
  | nil => exact absurd rfl h
  | cons a t ih =>
    have hmax := tally_max_cons a t
    by_cases ht : t = []
    · subst ht
      exact ⟨a, List.mem_cons_self a [], by simp [tally_max]⟩
    · obtain ⟨kv, hm, he⟩ := ih ht
      by_cases hc : tally_max t ≤ a.2
      · exact ⟨a, List.mem_cons_self a t, by omega⟩
      · exact ⟨kv, List.mem_cons_of_mem _ hm, by omega⟩

theorem tally_add_mem (t : List (String × Nat)) (k : String) (kv : String × Nat)
    (h : kv ∈ tally_add t k) : (∃ v, (kv.1, v) ∈ t) ∨ kv.1 = k := by
  unfold tally_add at h
  split at h
  · obtain ⟨kv0, hm, he⟩ := List.mem_map.mp h
    by_cases hk : kv0.1 == k
    · rw [if_pos hk] at he
      refine Or.inl ⟨kv0.2, ?_⟩
      have h1 : kv.1 = kv0.1 := by rw [← he]
      rw [h1]
      exact hm
    · rw [if_neg hk] at he
      subst he
      exact Or.inl ⟨kv0.2, hm⟩
  · rcases List.mem_append.mp h with h | h
    · exact Or.inl ⟨kv.2, h⟩
    · simp only [List.mem_singleton] at h
      subst h
      exact Or.inr rfl

theorem tally_add_nodup (t : List (String × Nat)) (k : String)
    (h : t.Pairwise (fun a b => a.1 ≠ b.1)) :
    (tally_add t k).Pairwise (fun a b => a.1 ≠ b.1) := by
  unfold tally_add
  split
  · exact List.Pairwise.map _ (fun a b hab => by
      by_cases ha : a.1 == k <;> by_cases hb : b.1 == k <;> simp [ha, hb, hab]) h
  · next hany =>
    refine List.pairwise_append.mpr ⟨h, List.pairwise_singleton _ _, ?_⟩
    intro a ha b hb
    simp only [List.mem_singleton] at hb
    subst hb
    intro hak
    exact hany (List.any_eq_true.mpr ⟨a, ha, by simp [hak]⟩)

theorem tally_get_of_mem_nodup (t : List (String × Nat)) (kv : String × Nat)
    (h : kv ∈ t) (hnd : t.Pairwise (fun a b => a.1 ≠ b.1)) :
    tally_get t kv.1 = kv.2 := by
  induction t with
  | nil => cases h
  | cons a t ih =>
    rcases List.mem_cons.mp h with h | h
    · subst h
      simp [tally_get, List.find?]
    · have hne : a.1 ≠ kv.1 := (List.pairwise_cons.mp hnd).1 kv h
      have : (a.1 == kv.1) = false := by simpa using hne
      simp only [tally_get, List.find?, this]
      exact ih h (List.pairwise_cons.mp hnd).2

/-- Key-origin propagation through a tally-building fold. -/
theorem foldl_step_keys {β : Type} (step : List (String × Nat) → β → List (String × Nat))
    (P : String → Prop)
    (hstep : ∀ t b kv, kv ∈ step t b → (∃ v, (kv.1, v) ∈ t) ∨ P kv.1) :
    ∀ (l : List β) (t : List (String × Nat)) (kv : String × Nat),
      kv ∈ l.foldl step t → (∃ v, (kv.1, v) ∈ t) ∨ P kv.1 := by
  intro l
  induction l with
  | nil => intro t kv h; exact Or.inl ⟨kv.2, h⟩
  | cons b l ih =>
    intro t kv h
    rcases ih (step t b) kv h with ⟨v, hv⟩ | hP
    · exact (hstep t b (kv.1, v) hv).imp id id
    · exact Or.inr hP

/-- Nodup-keys preservation through a tally-building fold. -/
theorem foldl_step_nodup {β : Type} (step : List (String × Nat) → β → List (String × Nat))
    (hstep : ∀ t b, t.Pairwise (fun a c => a.1 ≠ c.1) →
      (step t b).Pairwise (fun a c => a.1 ≠ c.1)) :
    ∀ (l : List β) (t : List (String × Nat)),
      t.Pairwise (fun a c => a.1 ≠ c.1) →
      (l.foldl step t).Pairwise (fun a c => a.1 ≠ c.1) := by
  intro l
  induction l with
  | nil => exact fun t h => h
  | cons b l ih => exact fun t h => ih (step t b) (hstep t b h)

theorem tally_add_key_present (t : List (String × Nat)) (k : String) :
    ∃ v, (k, v) ∈ tally_add t k := by
  unfold tally_add
  split
  · next hany =>
    obtain ⟨kv, hm, hk⟩ := List.any_eq_true.mp hany
    have hk1 : kv.1 = k := by simpa using hk
    refine ⟨kv.2 + 1, ?_⟩
    have he : (k, kv.2 + 1) =
        (fun kv => if kv.1 == k then (kv.1, kv.2 + 1) else kv) kv := by
      simp [hk, hk1]
    rw [he]
    exact List.mem_map_of_mem _ hm
  · exact ⟨1, List.mem_append.mpr (Or.inr (by simp))⟩

theorem tally_add_key_mono (t : List (String × Nat)) (k k0 : String)
    (h : ∃ v, (k0, v) ∈ t) : ∃ v, (k0, v) ∈ tally_add t k := by
  obtain ⟨v, hv⟩ := h
  unfold tally_add
  split
  · by_cases hk : (k0 == k) = true
    · refine ⟨v + 1, ?_⟩
      have he : (k0, v + 1) =
          (fun kv => if kv.1 == k then (kv.1, kv.2 + 1) else kv) (k0, v) := by
        simp [hk]
      rw [he]
      exact List.mem_map_of_mem _ hv
    · refine ⟨v, ?_⟩
      have he : (k0, v) =
          (fun kv => if kv.1 == k then (kv.1, kv.2 + 1) else kv) (k0, v) := by
        simp [hk]
      rw [he]
      exact List.mem_map_of_mem _ hv
  · exact ⟨v, List.mem_append.mpr (Or.inl hv)⟩

theorem foldl_tally_keys_mono {β : Type}
    (step : List (String × Nat) → β → List (String × Nat))
    (hmono : ∀ t b k, (∃ v, (k, v) ∈ t) → ∃ v, (k, v) ∈ step t b) :
    ∀ (l : List β) (t : List (String × Nat)) (k : String),
      (∃ v, (k, v) ∈ t) → ∃ v, (k, v) ∈ l.foldl step t := by
  intro l
  induction l with
  | nil => exact fun t k h => h
  | cons b l ih => exact fun t k h => ih (step t b) k (hmono t b k h)

/-- `sorted(xs)[0]` of a nonempty list: a member below every element. -/
theorem lex_min_spec (s : String) (ss : List String) :
    ∃ m, lex_min (s :: ss) = some m ∧ m ∈ s :: ss ∧ ∀ t ∈ s :: ss, m ≤ t := by
  induction ss generalizing s with
  | nil => exact ⟨s, rfl, by simp, by simp⟩
  | cons t ts ih =>
    obtain ⟨m, hm1, hm2, hm3⟩ := ih (if t < s then t else s)
    have hxs : (if t < s then t else s) ≤ s := by
      by_cases h : t < s <;> simp [h, le_of_lt]
    have hxt : (if t < s then t else s) ≤ t := by
      by_cases h : t < s <;> simp [h, not_lt.mp]
    refine ⟨m, ?_, ?_, ?_⟩
    · simpa [lex_min, List.foldl_cons] using hm1
    · rcases List.mem_cons.mp hm2 with h | h
      · by_cases ht : t < s
        · rw [if_pos ht] at h
          subst h
          exact List.mem_cons_of_mem _ (List.mem_cons_self _ _)
        · rw [if_neg ht] at h
          subst h
          exact List.mem_cons_self _ _
      · exact List.mem_cons_of_mem _ (List.mem_cons_of_mem _ h)
    · intro u hu
      have hmx : m ≤ (if t < s then t else s) := hm3 _ (List.mem_cons_self _ _)
      rcases List.mem_cons.mp hu with h | h
      · subst h; exact le_trans hmx hxs
      · rcases List.mem_cons.mp h with h | h
        · subst h; exact le_trans hmx hxt
        · exact hm3 _ (List.mem_cons_of_mem _ h)

/-! ## Properties of the nomination tally -/

theorem day_tally_nodup (players alive : List Player) (votes : String → String) :
    (day_tally players alive votes).Pairwise (fun a b => a.1 ≠ b.1) := by
  unfold day_tally
  refine foldl_step_nodup _ ?_ alive [] List.Pairwise.nil
  intro t voter h
  cases hdv : day_vote_target players voter (votes voter.name) with
  | none => exact h
  | some tgt => exact tally_add_nodup t tgt.name h

/-- Every key of the nomination tally is the name of a living roster
member (vote targets are validated before being tallied). -/
theorem day_tally_keys (players alive : List Player) (votes : String → String)
    (kv : String × Nat) (h : kv ∈ day_tally players alive votes) :
    ∃ p, p ∈ players ∧ p.is_alive = true ∧ p.name = kv.1 := by
  unfold day_tally at h
  have hmain := foldl_step_keys _
    (fun k => ∃ p, p ∈ players ∧ p.is_alive = true ∧ p.name = k)
    ?_ alive [] kv h
  · rcases hmain with ⟨v, hv⟩ | hP
    · cases hv
    · exact hP
  · intro t voter kv' h'
    cases hdv : day_vote_target players voter (votes voter.name) with
    | none => rw [hdv] at h'; exact Or.inl ⟨kv'.2, h'⟩
    | some tgt =>
      rw [hdv] at h'
      rcases tally_add_mem t tgt.name kv' h' with h'' | h''
      · exact Or.inl h''
      · right
        unfold day_vote_target at hdv
        split at hdv
        · cases hdv
        · have hmem := List.mem_of_find?_eq_some hdv
          have hpred := List.find?_some hdv
          simp only [Bool.and_eq_true] at hpred
          exact ⟨tgt, hmem, hpred.1.2, h''.symm⟩

theorem collect_day_votes_accused (g : GameState) (votes : String → String) :
    (collect_day_votes g votes).2.2 = day_accused g votes := by
  simp only [collect_day_votes]
  split
  · next h =>
    simp only [day_accused]
    rw [if_pos h]
  · rfl

/-! ## Properties of the kill-vote tally -/

/-- Key-origin propagation that remembers which list element created a key. -/
theorem foldl_step_keys_mem {β : Type}
    (step : List (String × Nat) → β → List (String × Nat)) (P : String → Prop)
    (l : List β)
    (hstep : ∀ t b, b ∈ l → ∀ kv, kv ∈ step t b → (∃ v, (kv.1, v) ∈ t) ∨ P kv.1) :
    ∀ (t : List (String × Nat)) (kv : String × Nat),
      kv ∈ l.foldl step t → (∃ v, (kv.1, v) ∈ t) ∨ P kv.1 := by
  induction l with
  | nil => intro t kv h; exact Or.inl ⟨kv.2, h⟩
  | cons b l ih =>
    intro t kv h
    have ihh := ih (fun t' b' hb' => hstep t' b' (List.mem_cons_of_mem _ hb'))
      (step t b) kv h
    rcases ihh with ⟨v, hv⟩ | hP
    · exact (hstep t b (List.mem_cons_self _ _) (kv.1, v) hv).imp id id
    · exact Or.inr hP

theorem mafia_tally_nodup (mafia : List Player) (votes : String → String) :
    (mafia_tally mafia votes).Pairwise (fun a b => a.1 ≠ b.1) := by
  unfold mafia_tally
  refine foldl_step_nodup _ ?_ mafia [] List.Pairwise.nil
  intro t m h
  exact tally_add_nodup t (votes m.name) h

/-- Every key of the kill-vote tally is the vote of some listed
conspirator. -/
theorem mafia_tally_keys (mafia : List Player) (votes : String → String)
    (kv : String × Nat) (h : kv ∈ mafia_tally mafia votes) :
    ∃ m, m ∈ mafia ∧ votes m.name = kv.1 := by
  unfold mafia_tally at h
  have hmain := foldl_step_keys_mem _ (fun k => ∃ m, m ∈ mafia ∧ votes m.name = k)
    mafia ?_ [] kv h
  · rcases hmain with ⟨v, hv⟩ | hP
    · cases hv
    · exact hP
  · intro t b hb kv' h'
    rcases tally_add_mem t (votes b.name) kv' h' with h'' | h''
    · exact Or.inl h''
    · exact Or.inr ⟨b, hb, h''.symm⟩

/-- Every listed conspirator's vote appears as a key of the kill-vote
tally. -/
theorem mafia_tally_key_present (mafia : List Player) (votes : String → String)
    (m : Player) (hm : m ∈ mafia) :
    ∃ v, (votes m.name, v) ∈ mafia_tally mafia votes := by
  unfold mafia_tally
  suffices h : ∀ (l : List Player) (t : List (String × Nat)), m ∈ l →
      ∃ v, (votes m.name, v) ∈
        l.foldl (fun tal mm => tally_add tal (votes mm.name)) t by
    exact h mafia [] hm
  intro l
  induction l with
  | nil => intro t h; cases h
  | cons a l ih =>
    intro t h
    rcases List.mem_cons.mp h with h | h
    · subst h
      exact foldl_tally_keys_mono _
        (fun t' b k hk => tally_add_key_mono t' (votes b.name) k hk) l _ _
        (tally_add_key_present t (votes m.name))
    · exact ih (tally_add t (votes a.name)) h

/-- `collect_mafia_votes` records exactly the resolved target. -/
theorem collect_mafia_votes_pending (g : GameState) (votes : String → String)
    (c : String) (q : Player)
    (hne : (g.players.filter (fun p => p.role == Role.MAFIA && p.is_alive)).isEmpty = false)
    (ht : (mafia_valid_target_names g).isEmpty = false)
    (hc : mafia_choice (mafia_tally
      (g.players.filter (fun p => p.role == Role.MAFIA && p.is_alive)) votes) = some c)
    (hq : mafia_kill_target g c = some q) :
    (collect_mafia_votes g votes).1.pending_kills = [q.id] := by
  simp [collect_mafia_votes, hne, ht, hc, hq]

/-- When the kill-vote resolution produces no target, `pending_kills` is
left untouched. -/
theorem collect_mafia_votes_pending_none (g : GameState) (votes : String → String)
    (hc : mafia_choice (mafia_tally
      (g.players.filter (fun p => p.role == Role.MAFIA && p.is_alive)) votes) = none) :
    (collect_mafia_votes g votes).1.pending_kills = g.pending_kills := by
  by_cases hne : (g.players.filter (fun p => p.role == Role.MAFIA && p.is_alive)).isEmpty
  · simp [collect_mafia_votes, hne]
  · by_cases ht : (mafia_valid_target_names g).isEmpty
    · simp [collect_mafia_votes, hne, ht]
    · simp [collect_mafia_votes, hne, ht, hc]

/-! ## Judgment-phase lemmas -/

theorem handle_judgment_innocent (g : GameState) (jv : String → String)
    (ha : (find_accused g).isSome = true)
    (hv : (judgment_voters g).isEmpty = false)
    (hinn : judgment_verdict g jv = "innocent") :
    (handle_judgment g jv).1.phase = Phase.VOTING ∧
    (handle_judgment g jv).1.seconds_remaining =
      max ((g.last_phase_remaining_time.getD 0) - 10) 5 ∧
    (handle_judgment g jv).1.accused_id = none ∧
    (handle_judgment g jv).1.day = g.day ∧
    (handle_judgment g jv).1.config = g.config := by
  obtain ⟨a, haeq⟩ := Option.isSome_iff_exists.mp ha
  simp only [handle_judgment, haeq, hinn, hv, Bool.false_eq_true, if_false]
  rw [show (("innocent" : String) == "guilty") = false from rfl]
  simp

theorem handle_judgment_guilty (g : GameState) (jv : String → String)
    (ha : (find_accused g).isSome = true)
    (hv : (judgment_voters g).isEmpty = false)
    (hg : judgment_verdict g jv = "guilty") :
    (handle_judgment g jv).1.phase = Phase.LAST_WORDS ∧
    (handle_judgment g jv).1.seconds_remaining =
      g.config.phase_durations.get Phase.LAST_WORDS ∧
    (handle_judgment g jv).1.day = g.day ∧
    (handle_judgment g jv).1.config = g.config := by
  obtain ⟨a, haeq⟩ := Option.isSome_iff_exists.mp ha
  simp only [handle_judgment, haeq, hg, hv, Bool.false_eq_true, if_false]
  rw [show (("guilty" : String) == "guilty") = true from rfl]
  simp

/-- The innocent verdict, traced through the Defense-expiry wrapper of
`advance_game`: the return-to-Voting of `handle_judgment` is overridden and
the session goes to Night with the configured Night duration. -/
theorem defense_expiry_innocent (g : GameState) (inp : StepInput)
    (ha : (find_accused g).isSome = true)
    (hv : (judgment_voters g).isEmpty = false)
    (hinn : judgment_verdict g inp.jVotes = "innocent") :
    (defense_expiry g inp).1.phase = Phase.NIGHT ∧
    (defense_expiry g inp).1.seconds_remaining =
      g.config.phase_durations.get Phase.NIGHT ∧
    (defense_expiry g inp).1.accused_id = none := by
  simp only [defense_expiry]
  have h1 := handle_judgment_innocent
    { g with phase := Phase.JUDGMENT,
             transcript := g.transcript ++ [judgment_announce_event g] }
    inp.jVotes ha hv hinn
  rcases hJ : handle_judgment
    { g with phase := Phase.JUDGMENT,
             transcript := g.transcript ++ [judgment_announce_event g] }
    inp.jVotes with ⟨g2, jevs⟩
  rw [hJ] at h1
  have hph : g2.phase = Phase.VOTING := h1.1
  simp only [hJ]
  simp [hph]

/-! ## Broadcast-privacy lemmas: every event emitted on a broadcast path is
public -/

theorem handle_discussion_events_public (g : GameState) (rnd : DiscussionRand)
    (resp : OracleResp) :
    ∀ e ∈ (handle_discussion g rnd resp).2, e.payload.privateFlag = false := by
  intro e he
  simp only [handle_discussion] at he
  split at he
  · cases he
  · split at he
    · simp only [List.mem_singleton] at he
      subst he
      rfl
    · cases he

theorem check_win_events_public (g : GameState) :
    ∀ e ∈ (check_win_condition g).2.1, e.payload.privateFlag = false := by
  intro e he
  simp only [check_win_condition] at he
  split at he
  · simp only [List.mem_singleton] at he
    subst he
    rfl
  · split at he
    · simp only [List.mem_singleton] at he
      subst he
      rfl
    · cases he

theorem day_vote_event_public (g : GameState) (voter : Player)
    (votes : String → String) :
    (day_vote_event g voter votes).payload.privateFlag = false := by
  unfold day_vote_event
  split <;> rfl

theorem collect_day_votes_events_public (g : GameState) (votes : String → String) :
    ∀ e ∈ (collect_day_votes g votes).2.1, e.payload.privateFlag = false := by
  simp only [collect_day_votes]
  split
  · intro e he; cases he
  · simp only [List.forall_mem_append, List.forall_mem_map,
      List.forall_mem_singleton]
    refine ⟨⟨fun voter _ => day_vote_event_public g voter votes, rfl⟩, ?_⟩
    split
    · split
      · split
        · simp only [List.forall_mem_singleton]; rfl
        · intro e he; cases he
      · simp only [List.forall_mem_singleton]; rfl
    · simp only [List.forall_mem_singleton]; rfl

theorem handle_judgment_events_public (g : GameState) (jv : String → String) :
    ∀ e ∈ (handle_judgment g jv).2, e.payload.privateFlag = false := by
  simp only [handle_judgment]
  split
  · intro e he; cases he
  · split
    · intro e he; cases he
    · split <;>
        (simp [List.forall_mem_append, List.forall_mem_map,
           List.forall_mem_singleton, day_results_event]
         rintro a ha
         first
           | (rcases ha with (⟨v, -, rfl⟩ | rfl) | rfl <;> rfl)
           | (rcases ha with ⟨v, -, rfl⟩ | rfl | rfl <;> rfl)
           | (rcases ha with ⟨v, -, rfl⟩ | rfl <;> rfl))

theorem handle_last_words_events_public (g : GameState) (resp : OracleResp) :
    ∀ e ∈ (handle_last_words g resp).2, e.payload.privateFlag = false := by
  simp only [handle_last_words]
  split
  · split <;>
      simp [List.forall_mem_append, List.forall_mem_cons,
        List.forall_mem_singleton, day_results_event, chat_event]
  · intro e he; cases he

theorem discussion_expiry_events_public (g : GameState) (inp : StepInput) :
    ∀ e ∈ (discussion_expiry g inp).2, e.payload.privateFlag = false := by
  intro e he
  simp only [discussion_expiry] at he
  split at he
  · cases he with
    | head => rfl
    | tail _ h => cases h
  · rcases List.mem_append.mp he with h12 | h3
    · rcases List.mem_append.mp h12 with h1 | h2
      · cases h1 with
        | head => rfl
        | tail _ h => cases h
      · exact collect_day_votes_events_public _ inp.dayVotes e h2
    · cases h3 with
      | head => rfl
      | tail _ h => cases h

theorem defense_expiry_events_public (g : GameState) (inp : StepInput) :
    ∀ e ∈ (defense_expiry g inp).2, e.payload.privateFlag = false := by
  intro e he
  simp only [defense_expiry] at he
  split at he
  · -- the judgment sent the accused to last words
    split at he
    · rcases List.mem_append.mp he with h123 | h4
      · rcases List.mem_append.mp h123 with h12 | h3
        · rcases List.mem_append.mp h12 with h1 | h2
          · cases h1 with
            | head => rfl
            | tail _ h => cases h
          · exact handle_judgment_events_public _ inp.jVotes e h2
        · exact handle_last_words_events_public _ inp.lwResp e h3
      · exact check_win_events_public _ e h4
    · rcases List.mem_append.mp he with h1234 | h5
      · rcases List.mem_append.mp h1234 with h123 | h4
        · rcases List.mem_append.mp h123 with h12 | h3
          · rcases List.mem_append.mp h12 with h1 | h2
            · cases h1 with
              | head => rfl
              | tail _ h => cases h
            · exact handle_judgment_events_public _ inp.jVotes e h2
          · exact handle_last_words_events_public _ inp.lwResp e h3
        · exact check_win_events_public _ e h4
      · cases h5 with
        | head => rfl
        | tail _ h => cases h
  · -- no last words: the win check is skipped, only the override runs
    split at he
    · next hend => simp at hend
    · rcases List.mem_append.mp he with h1234 | h5
      · rcases List.mem_append.mp h1234 with h123 | h4
        · rcases List.mem_append.mp h123 with h12 | h3
          · rcases List.mem_append.mp h12 with h1 | h2
            · cases h1 with
              | head => rfl
              | tail _ h => cases h
            · exact handle_judgment_events_public _ inp.jVotes e h2
          · cases h3
        · cases h4
      · cases h5 with
        | head => rfl
        | tail _ h => cases h

theorem last_words_expiry_events_public (g : GameState) (inp : StepInput) :
    ∀ e ∈ (last_words_expiry g inp).2, e.payload.privateFlag = false := by
  intro e he
  simp only [last_words_expiry] at he
  split at he
  · rcases List.mem_append.mp he with h1 | h2
    · exact handle_discussion_events_public g inp.rnd inp.discResp e h1
    · exact check_win_events_public _ e h2
  · rcases List.mem_append.mp he with h12 | h3
    · rcases List.mem_append.mp h12 with h1 | h2
      · exact handle_discussion_events_public g inp.rnd inp.discResp e h1
      · exact check_win_events_public _ e h2
    · cases h3 with
      | head => rfl
      | tail _ h => cases h

theorem micro_step_events_public (g : GameState) (inp : StepInput) :
    ∀ e ∈ (micro_step g inp).2, e.payload.privateFlag = false := by
  intro e he
  simp only [micro_step] at he
  split at he
  · exact handle_discussion_events_public g inp.rnd inp.discResp e he
  · cases he

theorem advance_timer_expiry_events_public (g : GameState) (inp : StepInput)
    (g' : GameState) (b : List Event)
    (hok : advance_timer_expiry g inp = Except.ok (g', b)) :
    ∀ e ∈ b, e.payload.privateFlag = false := by
  unfold advance_timer_expiry at hok
  cases hph : g.phase <;> rw [hph] at hok
  case DISCUSSION =>
    injection hok with hX
    intro e he
    have hb : e ∈ (discussion_expiry g inp).2 := by rw [hX]; exact he
    exact discussion_expiry_events_public g inp e hb
  case DEFENSE =>
    injection hok with hX
    intro e he
    have hb : e ∈ (defense_expiry g inp).2 := by rw [hX]; exact he
    exact defense_expiry_events_public g inp e hb
  case JUDGMENT =>
    injection hok with hX
    injection hX with h1 h2
    intro e he
    rw [← h2] at he
    cases he with
    | head => rfl
    | tail _ h => cases h
  case LAST_WORDS =>
    injection hok with hX
    intro e he
    have hb : e ∈ (last_words_expiry g inp).2 := by rw [hX]; exact he
    exact last_words_expiry_events_public g inp e hb
  case NIGHT => exact Except.noConfusion hok
  case VOTING =>
    injection hok with hX
    injection hX with h1 h2
    intro e he
    rw [← h2] at he
    cases he with
    | head => rfl
    | tail _ h => cases h
  case GAME_OVER =>
    injection hok with hX
    injection hX with h1 h2
    intro e he
    rw [← h2] at he
    cases he with
    | head => rfl
    | tail _ h => cases h

/-! ## Field-preservation lemmas for the timer invariant -/

theorem handle_discussion_fields (g : GameState) (rnd : DiscussionRand)
    (resp : OracleResp) :
    (handle_discussion g rnd resp).1.seconds_remaining = g.seconds_remaining ∧
    (handle_discussion g rnd resp).1.day = g.day ∧
    (handle_discussion g rnd resp).1.config = g.config ∧
    (handle_discussion g rnd resp).1.phase = g.phase := by
  unfold handle_discussion
  split
  · exact ⟨rfl, rfl, rfl, rfl⟩
  · exact ⟨rfl, rfl, rfl, rfl⟩

theorem collect_day_votes_fields (g : GameState) (votes : String → String) :
    (collect_day_votes g votes).1.seconds_remaining = g.seconds_remaining ∧
    (collect_day_votes g votes).1.day = g.day ∧
    (collect_day_votes g votes).1.config = g.config := by
  simp only [collect_day_votes]
  split
  · exact ⟨rfl, rfl, rfl⟩
  · exact ⟨rfl, rfl, rfl⟩

theorem handle_judgment_day_config (g : GameState) (jv : String → String) :
    (handle_judgment g jv).1.day = g.day ∧
    (handle_judgment g jv).1.config = g.config := by
  simp only [handle_judgment]
  split
  · exact ⟨rfl, rfl⟩
  · split
    · exact ⟨rfl, rfl⟩
    · split
      · exact ⟨rfl, rfl⟩
      · exact ⟨rfl, rfl⟩

theorem handle_judgment_phase (g : GameState) (jv : String → String) :
    (handle_judgment g jv).1.phase = Phase.VOTING ∨
    (handle_judgment g jv).1.phase = Phase.LAST_WORDS ∨
    (handle_judgment g jv).1.phase = g.phase := by
  simp only [handle_judgment]
  split
  · exact Or.inl rfl
  · split
    · exact Or.inr (Or.inr rfl)
    · split
      · exact Or.inr (Or.inl rfl)
      · exact Or.inl rfl

theorem handle_judgment_seconds (g : GameState) (jv : String → String) :
    (handle_judgment g jv).1.seconds_remaining = g.seconds_remaining ∨
    (handle_judgment g jv).1.seconds_remaining =
      g.config.phase_durations.get Phase.LAST_WORDS ∨
    (handle_judgment g jv).1.seconds_remaining =
      max ((g.last_phase_remaining_time.getD 0) - 10) 5 := by
  simp only [handle_judgment]
  split
  · exact Or.inl rfl
  · split
    · exact Or.inl rfl
    · split
      · exact Or.inr (Or.inl rfl)
      · exact Or.inr (Or.inr rfl)

theorem handle_last_words_fields (g : GameState) (resp : OracleResp) :
    (handle_last_words g resp).1.seconds_remaining =
      g.config.phase_durations.get Phase.NIGHT ∧
    (handle_last_words g resp).1.day = g.day ∧
    (handle_last_words g resp).1.config = g.config ∧
    (handle_last_words g resp).1.phase = Phase.NIGHT := by
  simp only [handle_last_words]
  split
  · exact ⟨rfl, rfl, rfl, rfl⟩
  · exact ⟨rfl, rfl, rfl, rfl⟩

theorem check_win_fields (g : GameState) :
    (check_win_condition g).1.seconds_remaining = g.seconds_remaining ∧
    (check_win_condition g).1.day = g.day ∧
    (check_win_condition g).1.config = g.config := by
  simp only [check_win_condition]
  split
  · exact ⟨rfl, rfl, rfl⟩
  · split
    · exact ⟨rfl, rfl, rfl⟩
    · exact ⟨rfl, rfl, rfl⟩

theorem check_win_phase (g : GameState) :
    (check_win_condition g).1.phase = g.phase ∨
    (check_win_condition g).1.phase = Phase.GAME_OVER := by
  simp only [check_win_condition]
  split
  · exact Or.inr rfl
  · split
    · exact Or.inr rfl
    · exact Or.inl rfl

theorem discussion_expiry_fields (g : GameState) (inp : StepInput) :
    ((discussion_expiry g inp).1.seconds_remaining =
       g.config.phase_durations.get Phase.NIGHT ∨
     (discussion_expiry g inp).1.seconds_remaining =
       g.config.phase_durations.get Phase.DEFENSE) ∧
    (discussion_expiry g inp).1.day = g.day := by
  simp only [discussion_expiry]
  split
  · exact ⟨Or.inl rfl, rfl⟩
  · split
    · exact ⟨Or.inr rfl, (collect_day_votes_fields _ inp.dayVotes).2.1⟩
    · exact ⟨Or.inl rfl, (collect_day_votes_fields _ inp.dayVotes).2.1⟩

theorem defense_expiry_fields (g : GameState) (inp : StepInput) :
    (defense_expiry g inp).1.seconds_remaining =
      g.config.phase_durations.get Phase.NIGHT ∧
    (defense_expiry g inp).1.day = g.day := by
  simp only [defense_expiry]
  split
  · -- the accused went to last words: execution, then the win check
    next hlw =>
      have hlwf := handle_last_words_fields (handle_judgment { g with
        transcript := g.transcript ++ [judgment_announce_event g],
        phase := Phase.JUDGMENT } inp.jVotes).1 inp.lwResp
      have hjf := handle_judgment_day_config { g with
        transcript := g.transcript ++ [judgment_announce_event g],
        phase := Phase.JUDGMENT } inp.jVotes
      have hcwf := check_win_fields (handle_last_words (handle_judgment { g with
        transcript := g.transcript ++ [judgment_announce_event g],
        phase := Phase.JUDGMENT } inp.jVotes).1 inp.lwResp).1
      have hcwp := check_win_phase (handle_last_words (handle_judgment { g with
        transcript := g.transcript ++ [judgment_announce_event g],
        phase := Phase.JUDGMENT } inp.jVotes).1 inp.lwResp).1
      have hsec : (check_win_condition (handle_last_words (handle_judgment { g with
          transcript := g.transcript ++ [judgment_announce_event g],
          phase := Phase.JUDGMENT } inp.jVotes).1 inp.lwResp).1).1.seconds_remaining =
            g.config.phase_durations.get Phase.NIGHT := by
        rw [hcwf.1, hlwf.1, hjf.2]
      have hday : (check_win_condition (handle_last_words (handle_judgment { g with
          transcript := g.transcript ++ [judgment_announce_event g],
          phase := Phase.JUDGMENT } inp.jVotes).1 inp.lwResp).1).1.day = g.day := by
        rw [hcwf.2.1, hlwf.2.1, hjf.1]
      split
      · exact ⟨hsec, hday⟩
      · have hnotv : ((check_win_condition (handle_last_words (handle_judgment { g with
            transcript := g.transcript ++ [judgment_announce_event g],
            phase := Phase.JUDGMENT } inp.jVotes).1 inp.lwResp).1).1.phase ==
              Phase.VOTING) = false := by
          rcases hcwp with h | h <;> rw [h]
          · rw [hlwf.2.2.2]
            rfl
          · rfl
        have hnotj : ((check_win_condition (handle_last_words (handle_judgment { g with
            transcript := g.transcript ++ [judgment_announce_event g],
            phase := Phase.JUDGMENT } inp.jVotes).1 inp.lwResp).1).1.phase ==
              Phase.JUDGMENT) = false := by
          rcases hcwp with h | h <;> rw [h]
          · rw [hlwf.2.2.2]
            rfl
          · rfl
        rw [hnotv]
        split
        · next h => simp at h
        · rw [hnotj]
          split
          · next h => simp at h
          · exact ⟨hsec, hday⟩
  · -- no last words: the innocent/failsafe override decides the fields
    next hlw =>
      split
      · next hend => simp at hend
      · have hjf := handle_judgment_day_config { g with
          transcript := g.transcript ++ [judgment_announce_event g],
          phase := Phase.JUDGMENT } inp.jVotes
        split
        · exact ⟨rfl, hjf.1⟩
        · next hnotv =>
          have hjp := handle_judgment_phase { g with
            transcript := g.transcript ++ [judgment_announce_event g],
            phase := Phase.JUDGMENT } inp.jVotes
          have hj : (handle_judgment { g with
              transcript := g.transcript ++ [judgment_announce_event g],
              phase := Phase.JUDGMENT } inp.jVotes).1.phase = Phase.JUDGMENT := by
            rcases hjp with h | h | h
            · exact absurd (by simp [h]) hnotv
            · exact absurd (by simp [h]) hlw
            · exact h
          rw [if_pos (by simp [hj])]
          exact ⟨rfl, hjf.1⟩

theorem last_words_expiry_fields (g : GameState) (inp : StepInput) :
    (last_words_expiry g inp).1.seconds_remaining = g.seconds_remaining ∧
    (last_words_expiry g inp).1.day = g.day := by
  simp only [last_words_expiry]
  have hcw := check_win_fields (handle_discussion g inp.rnd inp.discResp).1
  have hhd := handle_discussion_fields g inp.rnd inp.discResp
  split
  · exact ⟨hcw.1.trans hhd.1, (hcw.2.1).trans hhd.2.1⟩
  · exact ⟨hcw.1.trans hhd.1, (hcw.2.1).trans hhd.2.1⟩

/-! ## Claim theorems -/

/-- **C9**: the forced-choice oracle client always returns exactly one
element of the supplied legal-value list or `"abstain"`: a response that
fails the case-insensitive containment matching is coerced to `"abstain"`,
and an HTTP or parsing failure (the `none` response) yields `"abstain"`
instead of raising, so the remaining voters of an aggregation round are
unaffected. -/
theorem c9_forced_choice_in_set (valid_targets : List String) (dummy : Bool)
    (raw : Option String) :
    call_structured_vote_result valid_targets dummy raw ∈ valid_targets ∨
    call_structured_vote_result valid_targets dummy raw = "abstain" := by
  unfold call_structured_vote_result
  split
  · cases valid_targets with
    | nil => right; rfl
    | cons a l => left; exact List.mem_cons_self a l
  · cases raw with
    | none => right; rfl
    | some r =>
      simp only
      split
      · next t ht => exact Or.inl (List.mem_of_find?_eq_some ht)
      · split
        · next t ht => exact Or.inl (List.mem_of_find?_eq_some ht)
        · right; rfl

/-- **C10**: `GET /games/{id}` pops only the `mafia_transcript` key — which
the `GameState` model does not even declare, so nothing is removed — and the
main transcript, with every private-flagged event in it, is returned
unchanged to any caller. -/
theorem c10_status_returns_private_transcript_events (g : GameState) :
    get_game_status_response g = game_dict g ∧
    dict_lookup "transcript" (get_game_status_response g) =
      some (DictVal.vEvents g.transcript) :=
  ⟨rfl, rfl⟩

/-- **C7**: a newly created session starts in Discussion on day 1 with a
countdown of exactly 10 seconds whatever the configured Discussion duration,
and the day-1 Discussion expiry moves straight to Night appending nothing to
the transcript (no vote collection). -/
theorem c7_day_one_abbreviated (cfg : GameConfig) (roles : List Role)
    (gid : String) (inp : StepInput) :
    (create_game_state cfg roles gid).seconds_remaining = 10 ∧
    (create_game_state cfg roles gid).day = 1 ∧
    (create_game_state cfg roles gid).phase = Phase.DISCUSSION ∧
    (advance_expiry_state (create_game_state cfg roles gid) inp).phase =
      Phase.NIGHT ∧
    (advance_expiry_state (create_game_state cfg roles gid) inp).transcript =
      (create_game_state cfg roles gid).transcript ∧
    (advance_expiry_state (create_game_state cfg roles gid) inp).day = 1 :=
  ⟨rfl, rfl, rfl, rfl, rfl, rfl⟩

/-- **C6**: the win-check predicate is exactly as specified — zero living
conspirators ends the game for the town, conspirator parity ends it for the
conspirators — but the night-expiry branch of `advance_game` raises
`AttributeError` on the undeclared `mafia_transcript` field before the night
kills or the post-kill win check can run, so no night elimination ever ends
the game; the stored session is left unchanged and stuck. -/
theorem c6_win_check_and_night_crash :
    night_expiry g_c6_night {} =
      Except.error "AttributeError: 'GameState' object has no attribute 'mafia_transcript'" ∧
    loop_tick_state g_c6_night {} = g_c6_night ∧
    (check_win_condition g_c6_parity).1.winner = some "MAFIA" ∧
    (check_win_condition g_c6_parity).1.phase = Phase.GAME_OVER ∧
    (check_win_condition g_c6_parity).2.2 = true ∧
    (check_win_condition g_c6_town).1.winner = some "TOWN" ∧
    (check_win_condition g_c6_town).1.phase = Phase.GAME_OVER ∧
    (check_win_condition g_c6_going).2.2 = false ∧
    (check_win_condition g_c6_going).1.winner = none :=
  ⟨rfl, rfl, rfl, rfl, rfl, rfl, rfl, rfl, rfl⟩

/-- **C1**: the Defense-phase context builder embeds the unfiltered
transcript into the oracle prompt of the accused: with a Villager on trial,
both a conspirator-only chat line and the detective's private investigation
result appear verbatim among the prompt's transcript lines, although the
privacy filter of `get_player_action` excludes both events for the same
viewer. -/
theorem c1_defense_context_leaks_to_villager :
    p_c1_accused.role = Role.VILLAGER ∧
    ev_c1_mafia.payload.privateFlag = true ∧
    ev_c1_det.payload.privateFlag = true ∧
    (defense_opening_context_lines g_c1).contains (summary_line ev_c1_mafia) = true ∧
    (defense_opening_context_lines g_c1).contains (summary_line ev_c1_det) = true ∧
    ((get_player_action_context p_c1_accused g_c1).any (fun e => e == ev_c1_mafia)) = false ∧
    ((get_player_action_context p_c1_accused g_c1).any (fun e => e == ev_c1_det)) = false := by
  decide

/-- **C3 counterexample**: at a concrete Defense expiry with an unanimous
innocent verdict the session ends up in the Night phase with the configured
Night duration (35), not back in Voting with
`max(previousRemaining − 10, 5) = 5`, and the accused is cleared. -/
theorem c3_counterexample_innocent_goes_to_night :
    judgment_verdict g_c3 jv_c3 = "innocent" ∧
    (defense_expiry g_c3 inp_c3).1.phase = Phase.NIGHT ∧
    ((defense_expiry g_c3 inp_c3).1.phase == Phase.VOTING) = false ∧
    (defense_expiry g_c3 inp_c3).1.seconds_remaining = 35 ∧
    max ((g_c3.last_phase_remaining_time.getD 0) - 10) 5 = 5 ∧
    ((defense_expiry g_c3 inp_c3).1.seconds_remaining == (5 : Int)) = false ∧
    (defense_expiry g_c3 inp_c3).1.accused_id = none := by
  decide

/-- **C4 counterexample**: with four living players splitting their votes
two against two, both targets reach the ⌈4/2⌉ = 2 threshold, yet only the
first-tallied one (`Player_1`) is accused: `Player_0` has a tallied count
meeting the threshold and does not become the accused, refuting the claimed
"iff". -/
theorem c4_counterexample_two_at_threshold :
    tally_get (day_tally g_c4.players (alive_players g_c4) v_c4) "Player_0" = 2 ∧
    day_votes_needed (alive_players g_c4) = 2 ∧
    (day_accused g_c4 v_c4).map Player.name = some "Player_1" ∧
    ((day_accused g_c4 v_c4).map Player.name == some "Player_0") = false := by
  decide

/-- **C4 amended**: in a nomination round with at least two living players,
some player is accused iff the maximal tallied count (abstentions and
invalid votes excluded) reaches ⌈n/2⌉; the accused is then a single living
player whose tallied count equals that maximum (the code's strict-improvement
scan keeps the earliest-tallied maximum, so a second target that also
reaches the threshold is not accused); if no target reaches the threshold,
no accusation occurs and the Discussion expiry proceeds to Night. -/
theorem c4_amended_nomination_threshold (g : GameState) (votes : String → String)
    (hn : 2 ≤ (alive_players g).length) :
    ((day_accused g votes).isSome = true ↔
      day_votes_needed (alive_players g) ≤
        tally_max (day_tally g.players (alive_players g) votes)) ∧
    (∀ p, day_accused g votes = some p →
      p.is_alive = true ∧
      tally_get (day_tally g.players (alive_players g) votes) p.name =
        tally_max (day_tally g.players (alive_players g) votes) ∧
      day_votes_needed (alive_players g) ≤
        tally_get (day_tally g.players (alive_players g) votes) p.name) ∧
    ((g.day == 1) = false → day_accused g votes = none →
      (discussion_expiry g { dayVotes := votes }).1.phase = Phase.NIGHT) := by
  have hguard : ¬ (alive_players g).length < 2 := by omega
  have hthr : 1 ≤ day_votes_needed (alive_players g) := by
    unfold day_votes_needed; omega
  have hnodup := day_tally_nodup g.players (alive_players g) votes
  have hDA : day_accused g votes =
      (match tally_most (day_tally g.players (alive_players g) votes) with
       | (some mn, most) =>
         if most ≥ day_votes_needed (alive_players g) then
           g.players.find? (fun p => p.name == mn && p.is_alive)
         else none
       | (none, _) => none) := by
    simp only [day_accused]
    rw [if_neg hguard]
  have hmain :
      ((day_accused g votes).isSome = true ↔
        day_votes_needed (alive_players g) ≤
          tally_max (day_tally g.players (alive_players g) votes)) ∧
      (∀ p, day_accused g votes = some p →
        p.is_alive = true ∧
        tally_get (day_tally g.players (alive_players g) votes) p.name =
          tally_max (day_tally g.players (alive_players g) votes) ∧
        day_votes_needed (alive_players g) ≤
          tally_get (day_tally g.players (alive_players g) votes) p.name) := by
    rcases hm : tally_most (day_tally g.players (alive_players g) votes) with ⟨o, most⟩
    cases o with
    | none =>
      have hmax0 : tally_max (day_tally g.players (alive_players g) votes) = 0 :=
        tally_most_none _ (by rw [hm])
      rw [hmax0, hDA, hm]
      constructor
      · simp only [Option.isSome_none]
        constructor
        · intro h; cases h
        · intro h; omega
      · intro p hp; cases hp
    | some mn =>
      have hmost : most = tally_max (day_tally g.players (alive_players g) votes) := by
        have := tally_most_snd (day_tally g.players (alive_players g) votes)
        rw [hm] at this
        exact this
      have hmem : (mn, tally_max (day_tally g.players (alive_players g) votes)) ∈
          day_tally g.players (alive_players g) votes :=
        tally_most_some_mem _ mn (by rw [hm])
      obtain ⟨q, hq_mem, hq_alive, hq_name⟩ :=
        day_tally_keys g.players (alive_players g) votes _ hmem
      have hfind : (g.players.find? (fun p => p.name == mn && p.is_alive)).isSome := by
        refine List.find?_isSome.mpr ⟨q, hq_mem, ?_⟩
        simp [hq_name, hq_alive]
      by_cases hge : most ≥ day_votes_needed (alive_players g)
      · rw [hDA, hm]
        simp only [hge, if_pos]
        constructor
        · constructor
          · intro _; omega
          · intro _; exact hfind
        · intro p hp
          have hp_mem := List.mem_of_find?_eq_some hp
          have hp_pred := List.find?_some hp
          simp only [Bool.and_eq_true, beq_iff_eq] at hp_pred
          obtain ⟨hp_name, hp_alive⟩ := hp_pred
          have hget : tally_get (day_tally g.players (alive_players g) votes) mn =
              tally_max (day_tally g.players (alive_players g) votes) :=
            tally_get_of_mem_nodup _ _ hmem hnodup
          rw [hp_name]
          exact ⟨hp_alive, hget, by omega⟩
      · rw [hDA, hm]
        simp only [hge, if_neg, if_false]
        constructor
        · simp only [Option.isSome_none]
          constructor
          · intro h; cases h
          · intro h; omega
        · intro p hp; cases hp
  refine ⟨hmain.1, hmain.2, ?_⟩
  intro hday hnone
  simp only [discussion_expiry]
  rw [if_neg (by simp [hday])]
  have hacc : (collect_day_votes
      { g with transcript := g.transcript ++
          [day_results_event g "🗳️ VOTING TIME! Each player will now be asked who they want to put on trial..."] }
      votes).2.2 = none := by
    rw [collect_day_votes_accused]
    exact hnone
  simp only [hacc]

/-- **C4 amended witness**: the amended nomination rule evaluated on the
four-player session. -/
theorem c4_amended_witness :
    (day_accused g_c4 v_c4).isSome = true ∧
    day_votes_needed (alive_players g_c4) ≤
      tally_max (day_tally g_c4.players (alive_players g_c4) v_c4) := by
  have h := c4_amended_nomination_threshold g_c4 v_c4 (by decide)
  exact ⟨h.1.mpr (by decide), by decide⟩

/-- **C5**: in a kill-vote round whose votes come from the forced-choice
client (each vote is a legal target name or `"abstain"`, and no legal name
reads as "abstain"), if at least one living conspirator votes for a target,
exactly one living non-conspirator is recorded as the pending elimination:
the resolved name has the highest tallied count, ties are broken by the
lexicographically smallest name among the tied leaders, and the recorded
player is a living non-conspirator carrying that name; if every conspirator
abstains, `pending_kills` is left unchanged. -/
theorem c5_kill_vote_resolution (g : GameState) (votes : String → String)
    (hvalid : ∀ m ∈ g.players.filter (fun p => p.role == Role.MAFIA && p.is_alive),
      votes m.name ∈ mafia_valid_target_names g ++ ["abstain"])
    (habst : ∀ t ∈ mafia_valid_target_names g, (py_lower t == "abstain") = false) :
    ((∀ m ∈ g.players.filter (fun p => p.role == Role.MAFIA && p.is_alive),
        votes m.name = "abstain") →
      (collect_mafia_votes g votes).1.pending_kills = g.pending_kills) ∧
    ((∃ m, m ∈ g.players.filter (fun p => p.role == Role.MAFIA && p.is_alive) ∧
        votes m.name ≠ "abstain") →
      ∃ c q,
        mafia_choice (mafia_tally
          (g.players.filter (fun p => p.role == Role.MAFIA && p.is_alive)) votes) =
            some c ∧
        q ∈ g.players ∧ q.is_alive = true ∧ (q.role == Role.MAFIA) = false ∧
        py_lower q.name = py_lower c ∧
        (collect_mafia_votes g votes).1.pending_kills = [q.id] ∧
        (∀ kv ∈ mafia_player_votes (mafia_tally
            (g.players.filter (fun p => p.role == Role.MAFIA && p.is_alive)) votes),
          kv.2 ≤ tally_get (mafia_tally
            (g.players.filter (fun p => p.role == Role.MAFIA && p.is_alive)) votes) c) ∧
        (∀ kv ∈ mafia_player_votes (mafia_tally
            (g.players.filter (fun p => p.role == Role.MAFIA && p.is_alive)) votes),
          kv.2 = tally_get (mafia_tally
            (g.players.filter (fun p => p.role == Role.MAFIA && p.is_alive)) votes) c →
          c ≤ kv.1)) := by
  constructor
  · -- every conspirator abstains: no elimination is recorded
    intro hall
    have hpv : mafia_player_votes (mafia_tally
        (g.players.filter (fun p => p.role == Role.MAFIA && p.is_alive)) votes) = [] := by
      unfold mafia_player_votes
      apply List.filter_eq_nil_iff.mpr
      intro kv hkv
      obtain ⟨m, hm, hv⟩ := mafia_tally_keys _ votes kv hkv
      have habs : votes m.name = "abstain" := hall m hm
      rw [← hv, habs]
      simp [py_lower]
    have hchoice : mafia_choice (mafia_tally
        (g.players.filter (fun p => p.role == Role.MAFIA && p.is_alive)) votes) = none := by
      unfold mafia_choice
      rw [hpv]
      simp
    exact collect_mafia_votes_pending_none g votes hchoice
  · rintro ⟨m, hm, hne⟩
    have hmE : (g.players.filter (fun p => p.role == Role.MAFIA && p.is_alive)).isEmpty = false := by
      have := List.ne_nil_of_mem hm
      simpa [List.isEmpty_iff] using this
    -- the witness vote is a legal target name
    have hc0 : votes m.name ∈ mafia_valid_target_names g := by
      rcases List.mem_append.mp (hvalid m hm) with h | h
      · exact h
      · simp only [List.mem_singleton] at h
        exact absurd h hne
    have htE : (mafia_valid_target_names g).isEmpty = false := by
      have := List.ne_nil_of_mem hc0
      simpa [List.isEmpty_iff] using this
    -- its key is in the tally, and survives the abstain filter
    obtain ⟨v0, hv0⟩ := mafia_tally_key_present _ votes m hm
    have hpvmem : (votes m.name, v0) ∈ mafia_player_votes (mafia_tally
        (g.players.filter (fun p => p.role == Role.MAFIA && p.is_alive)) votes) := by
      unfold mafia_player_votes
      refine List.mem_filter.mpr ⟨hv0, ?_⟩
      have := habst _ hc0
      simp [this]
    have hpvne : mafia_player_votes (mafia_tally
        (g.players.filter (fun p => p.role == Role.MAFIA && p.is_alive)) votes) ≠ [] :=
      List.ne_nil_of_mem hpvmem
    -- the maximum is attained, so the tied-leader list is nonempty
    obtain ⟨kv0, hkv0m, hkv0e⟩ := tally_max_attained _ hpvne
    have htopmem : kv0.1 ∈ ((mafia_player_votes (mafia_tally
        (g.players.filter (fun p => p.role == Role.MAFIA && p.is_alive)) votes)).filter
          (fun kv => kv.2 == tally_max (mafia_player_votes (mafia_tally
            (g.players.filter (fun p => p.role == Role.MAFIA && p.is_alive)) votes)))).map
          (fun kv => kv.1) :=
      List.mem_map_of_mem _ (List.mem_filter.mpr ⟨hkv0m, by simp [hkv0e]⟩)
    cases htop : ((mafia_player_votes (mafia_tally
        (g.players.filter (fun p => p.role == Role.MAFIA && p.is_alive)) votes)).filter
          (fun kv => kv.2 == tally_max (mafia_player_votes (mafia_tally
            (g.players.filter (fun p => p.role == Role.MAFIA && p.is_alive)) votes)))).map
          (fun kv => kv.1) with
    | nil => rw [htop] at htopmem; cases htopmem
    | cons a as =>
      obtain ⟨c, hcmin, hcmem, hcle⟩ := lex_min_spec a as
      have hchoice : mafia_choice (mafia_tally
          (g.players.filter (fun p => p.role == Role.MAFIA && p.is_alive)) votes) = some c := by
        simp only [mafia_choice]
        rw [if_neg (by simpa [List.isEmpty_iff] using hpvne)]
        rw [htop]
        exact hcmin
      -- the chosen name carries the maximal count in the full tally
      have hcmem' := htop ▸ hcmem
      obtain ⟨kvc, hkvcm, hkvc1⟩ := List.mem_map.mp hcmem'
      have hkvcf := List.mem_filter.mp hkvcm
      have hkvc2 : kvc.2 = tally_max (mafia_player_votes (mafia_tally
          (g.players.filter (fun p => p.role == Role.MAFIA && p.is_alive)) votes)) := by
        simpa using hkvcf.2
      have hkvtal : kvc ∈ mafia_tally
          (g.players.filter (fun p => p.role == Role.MAFIA && p.is_alive)) votes :=
        (List.mem_filter.mp hkvcf.1).1
      have hctal : (c, tally_max (mafia_player_votes (mafia_tally
          (g.players.filter (fun p => p.role == Role.MAFIA && p.is_alive)) votes))) ∈
            mafia_tally (g.players.filter (fun p => p.role == Role.MAFIA && p.is_alive)) votes := by
        rw [← hkvc1, ← hkvc2]
        exact hkvtal
      have hget : tally_get (mafia_tally
          (g.players.filter (fun p => p.role == Role.MAFIA && p.is_alive)) votes) c =
            tally_max (mafia_player_votes (mafia_tally
              (g.players.filter (fun p => p.role == Role.MAFIA && p.is_alive)) votes)) :=
        tally_get_of_mem_nodup _ _ hctal (mafia_tally_nodup _ votes)
      -- the chosen name is some conspirator's vote, hence a legal target name
      obtain ⟨m', hm', hvm'⟩ := mafia_tally_keys _ votes _ hctal
      have hvm'c : votes m'.name = c := by simpa using hvm'
      have hcv : c ∈ mafia_valid_target_names g := by
        rcases List.mem_append.mp (hvalid m' hm') with h | h
        · rw [hvm'c] at h
          exact h
        · exfalso
          simp only [List.mem_singleton] at h
          have hceq : c = "abstain" := hvm'c.symm.trans h
          have hp := hkvcf.1
          unfold mafia_player_votes at hp
          have hpred := (List.mem_filter.mp hp).2
          rw [hkvc1, hceq] at hpred
          simp [py_lower] at hpred
      -- a living non-conspirator carries that name
      obtain ⟨q0, hq0f, hq0n⟩ := List.mem_map.mp hcv
      have hq0 := List.mem_filter.mp hq0f
      have hq0p : (q0.is_alive && !(q0.role == Role.MAFIA)) = true := hq0.2
      simp only [Bool.and_eq_true] at hq0p
      have hfind : (g.players.find? (fun p =>
          py_lower p.name == py_lower c && p.is_alive && !(p.role == Role.MAFIA))).isSome := by
        refine List.find?_isSome.mpr ⟨q0, hq0.1, ?_⟩
        simp [hq0n, hq0p.1, hq0p.2]
      obtain ⟨q, hq⟩ := Option.isSome_iff_exists.mp hfind
      have hqmem := List.mem_of_find?_eq_some hq
      have hqpred := List.find?_some hq
      simp only [Bool.and_eq_true] at hqpred
      refine ⟨c, q, hchoice, hqmem, hqpred.1.2, ?_, ?_, ?_, ?_, ?_⟩
      · simpa using hqpred.2
      · have := hqpred.1.1
        exact beq_iff_eq.mp this
      · exact collect_mafia_votes_pending g votes c q hmE htE hchoice hq
      · intro kv hkv
        rw [hget]
        exact tally_max_le_of_mem _ kv hkv
      · intro kv hkv hkveq
        have : kv.1 ∈ ((mafia_player_votes (mafia_tally
            (g.players.filter (fun p => p.role == Role.MAFIA && p.is_alive)) votes)).filter
              (fun kv => kv.2 == tally_max (mafia_player_votes (mafia_tally
                (g.players.filter (fun p => p.role == Role.MAFIA && p.is_alive)) votes)))).map
              (fun kv => kv.1) := by
          refine List.mem_map_of_mem _ (List.mem_filter.mpr ⟨hkv, ?_⟩)
          rw [hget] at hkveq
          simp [hkveq]
        rw [htop] at this
        exact hcle _ this

/-- **C5 witness**: the kill-vote theorem applied to the concrete session —
the single conspirator votes for `Player_2`, who becomes the unique pending
elimination. -/
theorem c5_witness :
    (∃ m, m ∈ g_c5.players.filter (fun p => p.role == Role.MAFIA && p.is_alive) ∧
      v_c5 m.name ≠ "abstain") ∧
    (collect_mafia_votes g_c5 v_c5).1.pending_kills = ["Player_2"] := by
  have h := c5_kill_vote_resolution g_c5 v_c5 (by decide) (by decide)
  have hex : ∃ m, m ∈ g_c5.players.filter (fun p => p.role == Role.MAFIA && p.is_alive) ∧
      v_c5 m.name ≠ "abstain" :=
    ⟨mk_player "Player_0" Role.MAFIA, by decide, by decide⟩
  refine ⟨hex, ?_⟩
  obtain ⟨c, q, _, _, _, _, _, hpending, _, _⟩ := h.2 hex
  rw [hpending]
  have hc : (collect_mafia_votes g_c5 v_c5).1.pending_kills = ["Player_2"] := by decide
  rw [hpending] at hc
  exact hc

/-- **C3 amended**: the verdict is guilty iff the guilty-count strictly
exceeds the innocent-count (ties acquit); a guilty verdict moves
`handle_judgment` to LastWords with the configured LastWords duration; an
innocent verdict makes `handle_judgment` return to Voting with
`seconds_remaining = max((last_phase_remaining_time or 0) − 10, 5)` and a
cleared accused — but the Defense-expiry wrapper of `advance_game`
immediately overrides that outcome, sending the session to Night with the
configured Night duration (the accused stays cleared), so the session never
actually resumes Voting. -/
theorem c3_amended_verdict_and_transition (g : GameState) (jv : String → String)
    (ha : (find_accused g).isSome = true)
    (hv : (judgment_voters g).isEmpty = false) :
    (judgment_verdict g jv = "guilty" ↔
      judgment_count g jv "guilty" > judgment_count g jv "innocent") ∧
    (judgment_verdict g jv = "guilty" →
      (handle_judgment g jv).1.phase = Phase.LAST_WORDS ∧
      (handle_judgment g jv).1.seconds_remaining =
        g.config.phase_durations.get Phase.LAST_WORDS) ∧
    (judgment_verdict g jv = "innocent" →
      (handle_judgment g jv).1.phase = Phase.VOTING ∧
      (handle_judgment g jv).1.seconds_remaining =
        max ((g.last_phase_remaining_time.getD 0) - 10) 5 ∧
      (handle_judgment g jv).1.accused_id = none) ∧
    (judgment_verdict g jv = "innocent" →
      (defense_expiry g { jVotes := jv }).1.phase = Phase.NIGHT ∧
      (defense_expiry g { jVotes := jv }).1.seconds_remaining =
        g.config.phase_durations.get Phase.NIGHT ∧
      (defense_expiry g { jVotes := jv }).1.accused_id = none) := by
  refine ⟨?_, ?_, ?_, ?_⟩
  · unfold judgment_verdict
    by_cases hgi : judgment_count g jv "guilty" > judgment_count g jv "innocent"
    · rw [if_pos hgi]
      exact iff_of_true rfl hgi
    · rw [if_neg hgi]
      exact iff_of_false (by decide) hgi
  · intro hg
    have h := handle_judgment_guilty g jv ha hv hg
    exact ⟨h.1, h.2.1⟩
  · intro hinn
    have h := handle_judgment_innocent g jv ha hv hinn
    exact ⟨h.1, h.2.1, h.2.2.1⟩
  · intro hinn
    exact defense_expiry_innocent g { jVotes := jv } ha hv hinn

/-- **C3 amended witness**: the amended judgment behavior evaluated on the
concrete acquittal session. -/
theorem c3_amended_witness :
    (handle_judgment g_c3 jv_c3).1.phase = Phase.VOTING ∧
    (handle_judgment g_c3 jv_c3).1.seconds_remaining =
      max ((g_c3.last_phase_remaining_time.getD 0) - 10) 5 ∧
    (handle_judgment g_c3 jv_c3).1.accused_id = none ∧
    (defense_expiry g_c3 { jVotes := jv_c3 }).1.phase = Phase.NIGHT := by
  have h := c3_amended_verdict_and_transition g_c3 jv_c3 (by decide) (by decide)
  have hinn : judgment_verdict g_c3 jv_c3 = "innocent" := by decide
  obtain ⟨hj1, hj2, hj3⟩ := h.2.2.1 hinn
  exact ⟨hj1, hj2, hj3, (h.2.2.2 hinn).1⟩

/-- **C2**: no stream subscriber is ever delivered a conspirator-only
event — every event broadcast by a timer-loop iteration (micro-step chat,
tick, vote announcements, expiry transitions, win announcements,
phase starts) is a public event.  The micro-step path broadcasts exactly the
suffix of newly appended transcript events, in append order; the only
appenders of private-flagged events (`handle_night`, `collect_mafia_votes`,
`handle_detective_investigation`) are never reached on a broadcast path —
the compiled graph always enters the discussion node, and the night-expiry
branch raises before broadcasting anything. -/
theorem c2_stream_delivers_only_public_events (g : GameState) (inp : StepInput) :
    ∀ e ∈ loop_tick_broadcasts g inp, e.payload.privateFlag = false := by
  intro e he
  unfold loop_tick_broadcasts loop_tick at he
  by_cases hs : g.seconds_remaining > 0
  · rw [if_pos hs] at he
    rcases List.mem_append.mp he with h1 | h2
    · split at h1
      · exact micro_step_events_public g inp e h1
      · cases h1
    · cases h2 with
      | head => rfl
      | tail _ h => cases h
  · rw [if_neg hs] at he
    cases hadv : advance_timer_expiry g inp with
    | ok gb =>
      rw [hadv] at he
      exact advance_timer_expiry_events_public g inp gb.1 gb.2 (by rw [hadv]) e he
    | error s =>
      rw [hadv] at he
      cases he

/-- **C2 witness**: the tick event delivered by a concrete loop iteration is
public. -/
theorem c2_witness : ev_c2.payload.privateFlag = false :=
  c2_stream_delivers_only_public_events g_c2 {} ev_c2 (by decide)

/-- **C8**: across every timer tick and phase transition, if the stored
state's `seconds_remaining` is non-negative and every configured phase
duration is non-negative, then one loop iteration keeps `seconds_remaining`
non-negative and never decreases the day counter. -/
theorem c8_timer_and_day_invariants (g : GameState) (inp : StepInput)
    (hs : 0 ≤ g.seconds_remaining)
    (hd : ∀ ph, 0 ≤ g.config.phase_durations.get ph) :
    0 ≤ (loop_tick_state g inp).seconds_remaining ∧
    g.day ≤ (loop_tick_state g inp).day := by
  unfold loop_tick_state loop_tick
  by_cases hpos : g.seconds_remaining > 0
  · rw [if_pos hpos]
    have hmsec : (if (g.phase == Phase.DISCUSSION || g.phase == Phase.NIGHT ||
          g.phase == Phase.DEFENSE) && g.seconds_remaining % 5 == 0 then
            micro_step g inp
          else (g, [])).1.seconds_remaining = g.seconds_remaining := by
      split
      · unfold micro_step
        split
        · exact (handle_discussion_fields g inp.rnd inp.discResp).1
        · rfl
      · rfl
    have hmday : (if (g.phase == Phase.DISCUSSION || g.phase == Phase.NIGHT ||
          g.phase == Phase.DEFENSE) && g.seconds_remaining % 5 == 0 then
            micro_step g inp
          else (g, [])).1.day = g.day := by
      split
      · unfold micro_step
        split
        · exact (handle_discussion_fields g inp.rnd inp.discResp).2.1
        · rfl
      · rfl
    refine ⟨?_, ?_⟩
    · show 0 ≤ (if (g.phase == Phase.DISCUSSION || g.phase == Phase.NIGHT ||
          g.phase == Phase.DEFENSE) && g.seconds_remaining % 5 == 0 then
            micro_step g inp
          else (g, [])).1.seconds_remaining - 1
      rw [hmsec]
      omega
    · show g.day ≤ (if (g.phase == Phase.DISCUSSION || g.phase == Phase.NIGHT ||
          g.phase == Phase.DEFENSE) && g.seconds_remaining % 5 == 0 then
            micro_step g inp
          else (g, [])).1.day
      rw [hmday]
  · rw [if_neg hpos]
    unfold advance_timer_expiry
    cases hph : g.phase with
    | DISCUSSION =>
      show 0 ≤ (discussion_expiry g inp).1.seconds_remaining ∧
        g.day ≤ (discussion_expiry g inp).1.day
      obtain ⟨h1, h2⟩ := discussion_expiry_fields g inp
      refine ⟨?_, le_of_eq h2.symm⟩
      rcases h1 with h | h <;> rw [h] <;> exact hd _
    | VOTING =>
      exact ⟨hs, le_refl _⟩
    | DEFENSE =>
      show 0 ≤ (defense_expiry g inp).1.seconds_remaining ∧
        g.day ≤ (defense_expiry g inp).1.day
      obtain ⟨h1, h2⟩ := defense_expiry_fields g inp
      exact ⟨h1 ▸ hd Phase.NIGHT, le_of_eq h2.symm⟩
    | JUDGMENT =>
      exact ⟨hd Phase.NIGHT, le_refl _⟩
    | LAST_WORDS =>
      show 0 ≤ (last_words_expiry g inp).1.seconds_remaining ∧
        g.day ≤ (last_words_expiry g inp).1.day
      obtain ⟨h1, h2⟩ := last_words_expiry_fields g inp
      exact ⟨h1 ▸ hs, le_of_eq h2.symm⟩
    | NIGHT =>
      exact ⟨hs, le_refl _⟩
    | GAME_OVER =>
      exact ⟨hs, le_refl _⟩

/-- **C8 witness**: the invariant holds at a concrete running state with
the default durations. -/
theorem c8_witness :
    0 ≤ (loop_tick_state g_c8 {}).seconds_remaining ∧
    g_c8.day ≤ (loop_tick_state g_c8 {}).day :=
  c8_timer_and_day_invariants g_c8 {} (by decide)
    (by intro ph; cases ph <;> decide)

end Mafia
